import Mathlib

/-!
Verification of the discord-mod-sync-bot replication/reconciliation engine
(`src/main.ts`).  The source file contains two concatenated revisions of the
bot; the first copy (lines 1-556) is the later, authoritative revision and the
second copy (lines 557-1065) is an earlier revision.  Both are embedded here:
the later revision as `syncBans`, `syncTimeouts`, `syncMutedRole`,
`guildBanAdd`, `guildBanRemove`, `guildMemberUpdate` and `periodicSync`, and
the earlier revision's ban replicator as `syncBansEarly`.

Modelling conventions:
* Discord guilds, members and roles are explicit structures; the per-guild
  caches (`guild.roles.cache`, `member.roles.cache`, `guild.bans`) are lists.
* Every fallible session-layer call (ban create/remove, member timeout, role
  create/add/remove, member/ban/member-list fetch) is driven by an `ApiEnv`
  oracle saying which calls throw; `ApiEnv.ok` is the environment in which
  every call succeeds.  A thrown call inside a `try { } catch { }` block is
  swallowed exactly where the source swallows it; a throw outside any
  `try`/`catch` aborts the embedded operation with `threw := true`.
* Issued mutation calls (successful or thrown) are logged as `Act`s in
  issue order; fetches are not mutations and are not logged.
* Human-readable status strings sent to the updates channel are abstracted to
  the structured `Msg` type, one constructor per emission site, carrying the
  identifiers the string interpolates (timestamps are dropped).
* `Date.now()` is an explicit `now : Nat` parameter, fixed for the duration
  of one operation.
* `saveData` is modelled in two ways: semantically inside `BotState`
  (`savedData` holds the last persisted snapshot) and, for the snapshot-store
  claims, at the byte level via `serializeSyncData` / `fileAfterSave`, where
  `fs.writeFileSync` is a truncating whole-file write that an interruption
  can leave as a strict prefix of the new contents.
-/

/-- A Discord role, as cached by `guild.roles.cache`. -/
structure Role where
  id : String
  name : String
deriving DecidableEq, Repr

/-- A guild member: `communicationDisabledUntilTimestamp` is `timeoutUntil`
(absent means no timeout), `roles` is `member.roles.cache`. -/
structure Member where
  id : String
  displayName : String
  timeoutUntil : Option Nat
  roles : List Role
deriving DecidableEq, Repr

/-- A guild: role cache, member cache and the set of banned user ids. -/
structure Guild where
  id : String
  name : String
  roles : List Role
  members : List Member
  bans : List String
deriving DecidableEq, Repr

/-- `syncData.mutedRoles[userId]`: the canonical mute flag and origin guild. -/
structure MuteRecord where
  muted : Bool
  originGuildId : String
deriving DecidableEq, Repr

/-- The canonical snapshot `syncData` (three sections keyed by user id,
kept as association lists). -/
structure SyncData where
  bans : List (String × Bool)
  timeouts : List (String × Nat)
  mutedRoles : List (String × MuteRecord)
deriving DecidableEq, Repr

/-- The whole observable world: canonical snapshot, last persisted snapshot
(`saveData`), the reentrancy-guard set `processingUsers`, and the live state
of every guild the client is in (`client.guilds.cache`). -/
structure BotState where
  syncData : SyncData
  savedData : Option SyncData
  processingUsers : List String
  guilds : List Guild
deriving DecidableEq, Repr

/-- Failure oracle for the session layer: each field says whether the given
call throws.  `resolveUser` models whether `guild.bans.remove` can resolve
the removed user from the client user cache (its return value's truthiness). -/
structure ApiEnv where
  banCreateFails : String → String → Bool
  banRemoveFails : String → String → Bool
  timeoutFails : String → String → Bool
  roleCreateFails : String → Bool
  roleAddFails : String → String → Bool
  roleRemoveFails : String → String → Bool
  fetchMemberFails : String → String → Bool
  fetchBansFails : String → Bool
  fetchMembersFails : String → Bool
  resolveUser : String → Bool

/-- The environment in which every session-layer call succeeds. -/
def ApiEnv.ok : ApiEnv where
  banCreateFails := fun _ _ => false
  banRemoveFails := fun _ _ => false
  timeoutFails := fun _ _ => false
  roleCreateFails := fun _ => false
  roleAddFails := fun _ _ => false
  roleRemoveFails := fun _ _ => false
  fetchMemberFails := fun _ _ => false
  fetchBansFails := fun _ => false
  fetchMembersFails := fun _ => false
  resolveUser := fun _ => true

/-- Two environments agree on every call touching guild `gid` (and on user
resolution, which is guild-independent). -/
def ApiEnv.AgreeAt (gid : String) (e₁ e₂ : ApiEnv) : Prop :=
  (∀ u, e₁.banCreateFails gid u = e₂.banCreateFails gid u) ∧
  (∀ u, e₁.banRemoveFails gid u = e₂.banRemoveFails gid u) ∧
  (∀ u, e₁.timeoutFails gid u = e₂.timeoutFails gid u) ∧
  (e₁.roleCreateFails gid = e₂.roleCreateFails gid) ∧
  (∀ u, e₁.roleAddFails gid u = e₂.roleAddFails gid u) ∧
  (∀ u, e₁.roleRemoveFails gid u = e₂.roleRemoveFails gid u) ∧
  (∀ u, e₁.fetchMemberFails gid u = e₂.fetchMemberFails gid u) ∧
  (∀ u, e₁.resolveUser u = e₂.resolveUser u)

/-- One issued per-server mutation call.  `memberTimeout` carries the
duration argument passed to `member.timeout` (`none` clears the timeout). -/
inductive Act where
  | banCreate (guildId userId : String)
  | banRemove (guildId userId : String)
  | memberTimeout (guildId userId : String) (duration : Option Nat)
  | roleCreate (guildId roleName : String)
  | roleAdd (guildId userId roleId : String)
  | roleRemove (guildId userId roleId : String)
deriving DecidableEq, Repr

/-- Structured stand-in for the strings sent to the updates channel, one
constructor per emission site in the source. -/
inductive Msg where
  | dateLine
  | banHeader (banned : Bool)
  | banApplied (displayName guildName : String)
  | banEnforced (guildName : String)
  | unbanApplied (userId guildName : String)
  | timeoutHeader
  | timeoutApplied (displayName guildName : String)
  | muteHeader
  | muteAdded (displayName guildName : String)
  | muteRemoved (displayName guildName : String)
  | mutedRoleCreated (guildName : String)
  | banAddLog (userId guildId : String)
  | banRemoveLog (userId guildId : String)
  | timeoutUpdateLog (userId guildId : String)
  | muteChangeLog (userId guildId : String)
  | revertDetected (userId guildId : String)
  | muteReadded (userId guildId : String)
  | muteRemovedRevert (userId guildId : String)
  | psNewBanLog (userId guildId : String)
  | psTimeoutLog (userId guildId : String)
  | psDiscoveredMuteLog (userId guildId : String)
  | psOriginMismatch (userId guildId : String)
  | psCorrecting (userId guildId : String)
  | psCorrectionAdded (userId guildId : String)
  | psCorrectionRemoved (userId guildId : String)
  | fetchBansFailed (guildName : String)
  | fetchMembersFailed (guildId : String)
  | earlyBanned (displayName guildName : String)
  | earlyUnbanned (userId guildName : String)
deriving DecidableEq, Repr

/-- Result of an embedded operation: final world state, issued mutation
calls in order, emitted status messages in order, and whether an exception
escaped the operation (left uncaught by the source). -/
structure Res where
  st : BotState
  acts : List Act
  msgs : List Msg
  threw : Bool := false
deriving DecidableEq, Repr

/-- `MUTED_ROLE_NAME`. -/
def MUTED_ROLE_NAME : String := "Muted"

/-- Association-list lookup (`obj[key]`, `undefined` as `none`). -/
def lookupA {α : Type} : List (String × α) → String → Option α
  | [], _ => none
  | (k, v) :: rest, key => if k = key then some v else lookupA rest key

/-- Association-list assignment (`obj[key] = v`). -/
def setA {α : Type} : List (String × α) → String → α → List (String × α)
  | [], key, v => [(key, v)]
  | (k, w) :: rest, key, v =>
      if k = key then (key, v) :: rest else (k, w) :: setA rest key v

/-- Association-list deletion (`delete obj[key]`). -/
def eraseA {α : Type} : List (String × α) → String → List (String × α)
  | [], _ => []
  | (k, w) :: rest, key =>
      if k = key then eraseA rest key else (k, w) :: eraseA rest key

/-- JS truthiness of `syncData.bans[userId]`. -/
def truthyBan (o : Option Bool) : Bool :=
  match o with
  | some b => b
  | none => false

/-- `processingUsers.add(userId)` (JS `Set` semantics). -/
def procAdd (l : List String) (u : String) : List String :=
  if l.contains u then l else u :: l

/-- `processingUsers.delete(userId)` (JS `Set` semantics). -/
def procDel (l : List String) (u : String) : List String :=
  l.filter (fun x => x ≠ u)

/-- `guild.members.fetch(userId).catch(() => null)`: `none` when the fetch
fails or the user is not a member. -/
def fetchMember (env : ApiEnv) (g : Guild) (u : String) : Option Member :=
  if env.fetchMemberFails g.id u then none
  else g.members.find? (fun m => m.id = u)

/-- Replace the member with the given id inside a guild's member cache. -/
def Guild.setMember (g : Guild) (m : Member) : Guild :=
  { g with members := g.members.map (fun m' => if m'.id = m.id then m else m') }

/-- Replace the guild with the given id inside the client's guild cache. -/
def updateGuild (gs : List Guild) (gid : String) (g' : Guild) : List Guild :=
  gs.map (fun g => if g.id = gid then g' else g)

/-- Look up a guild in the client's guild cache. -/
def findGuild (st : BotState) (gid : String) : Option Guild :=
  st.guilds.find? (fun g => g.id = gid)

/-- `guild.bans.create(userId)` state effect (idempotent insertion; Discord's
ban endpoint succeeds on an already-banned user). -/
def Guild.addBan (g : Guild) (u : String) : Guild :=
  { g with bans := if g.bans.contains u then g.bans else g.bans ++ [u] }

/-- `guild.bans.remove(userId)` state effect. -/
def Guild.removeBan (g : Guild) (u : String) : Guild :=
  { g with bans := g.bans.filter (fun x => x ≠ u) }

/-!  ## Ban replicator, later revision (`syncBans`, src/main.ts lines 62-101)  -/

/-- The body of one iteration of the guild loop of `syncBans` (later
revision), including its enclosing `try`/`catch`.  Returns the guild's new
state, the mutation calls issued against it, and the propagation entry (if
any) it pushes onto `bannedMsg`. -/
def syncBansGuild (env : ApiEnv) (userId : String) (banned : Bool)
    (originGuild : String) (g : Guild) : Guild × List Act × Option Msg :=
  if banned then
    -- await guild.bans.create(userId, ...): issued unconditionally
    if env.banCreateFails g.id userId then
      (g, [Act.banCreate g.id userId], none)
    else
      let g' := g.addBan userId
      let mem := fetchMember env g' userId
      if g.id ≠ originGuild then
        match mem with
        | some m => (g', [Act.banCreate g.id userId], some (Msg.banApplied m.displayName g.name))
        | none => (g', [Act.banCreate g.id userId], some (Msg.banEnforced g.name))
      else (g', [Act.banCreate g.id userId], none)
  else
    -- await guild.bans.remove(userId, ...): throws when the user is not
    -- banned in this guild (Unknown Ban) or on an environment failure
    if env.banRemoveFails g.id userId || !(g.bans.contains userId) then
      (g, [Act.banRemove g.id userId], none)
    else
      let g' := g.removeBan userId
      if env.resolveUser userId && g.id ≠ originGuild then
        (g', [Act.banRemove g.id userId], some (Msg.unbanApplied userId g.name))
      else (g', [Act.banRemove g.id userId], none)

/-- The guild loop of `syncBans` (later revision).  Threads `bannedMsg`,
pushing the propagation header in front of the first entry. -/
def syncBansLoop (env : ApiEnv) (userId : String) (banned : Bool)
    (originGuild : String) :
    List Guild → List Msg → List Guild × List Act × List Msg
  | [], msgs => ([], [], msgs)
  | g :: gs, msgs =>
    let r := syncBansGuild env userId banned originGuild g
    let msgs1 := match r.2.2 with
      | some e => (if msgs.isEmpty then [Msg.banHeader banned] else msgs) ++ [e]
      | none => msgs
    let rest := syncBansLoop env userId banned originGuild gs msgs1
    (r.1 :: rest.1, r.2.1 ++ rest.2.1, rest.2.2)

/-- `syncBans(userId, banned, logMsg, originGuild)`, later revision
(src/main.ts lines 62-101): set the canonical ban flag, persist, sweep every
guild, then emit `logMsg`, the accumulated propagation entries and the date
line. -/
def syncBans (env : ApiEnv) (userId : String) (banned : Bool) (logMsg : Msg)
    (originGuild : String) (st : BotState) : Res :=
  let sd := { st.syncData with bans := setA st.syncData.bans userId banned }
  let r := syncBansLoop env userId banned originGuild st.guilds []
  { st := { st with syncData := sd, savedData := some sd, guilds := r.1 }
    acts := r.2.1
    msgs := [logMsg] ++ r.2.2 ++ [Msg.dateLine] }

/-!  ## Timeout replicator (`syncTimeouts`, src/main.ts lines 104-138)  -/

/-- `if (timeoutEnd && timeoutEnd > Date.now()) ... else ... timeoutEnd = null`:
the normalized expiry (JS truthiness makes an expiry of `0` falsy). -/
def normalizeTimeout (timeoutEnd : Option Nat) (now : Nat) : Option Nat :=
  match timeoutEnd with
  | some t => if t != 0 && decide (now < t) then some t else none
  | none => none

/-- The body of one iteration of the guild loop of `syncTimeouts`, including
its `try`/`catch`.  `eNorm` is the already-normalized expiry. -/
def syncTimeoutsGuild (env : ApiEnv) (now : Nat) (userId : String)
    (eNorm : Option Nat) (g : Guild) : Guild × List Act × Option Msg :=
  match fetchMember env g userId with
  | none => (g, [], none)
  | some m =>
    -- const currentTimeout = member.communicationDisabledUntilTimestamp ?? null
    if m.timeoutUntil = eNorm then (g, [], none)
    else
      let dur : Option Nat := eNorm.map (fun t => t - now)
      if env.timeoutFails g.id userId then
        (g, [Act.memberTimeout g.id userId dur], none)
      else
        -- applying a duration of t - now at instant `now` lands on t exactly
        let m' := { m with timeoutUntil := eNorm }
        (g.setMember m', [Act.memberTimeout g.id userId dur],
          some (Msg.timeoutApplied m.displayName g.name))

/-- The guild loop of `syncTimeouts`, threading `timeoutMsg`. -/
def syncTimeoutsLoop (env : ApiEnv) (now : Nat) (userId : String)
    (eNorm : Option Nat) :
    List Guild → List Msg → List Guild × List Act × List Msg
  | [], msgs => ([], [], msgs)
  | g :: gs, msgs =>
    let r := syncTimeoutsGuild env now userId eNorm g
    let msgs1 := match r.2.2 with
      | some e => (if msgs.isEmpty then [Msg.timeoutHeader] else msgs) ++ [e]
      | none => msgs
    let rest := syncTimeoutsLoop env now userId eNorm gs msgs1
    (r.1 :: rest.1, r.2.1 ++ rest.2.1, rest.2.2)

/-- `syncTimeouts(userId, timeoutEnd, logMessage)` (src/main.ts lines
104-138): normalize the expiry, store or delete the canonical entry,
persist, sweep every guild, emit the summary. -/
def syncTimeouts (env : ApiEnv) (now : Nat) (userId : String)
    (timeoutEnd : Option Nat) (logMsg : Msg) (st : BotState) : Res :=
  let eNorm := normalizeTimeout timeoutEnd now
  let sd := { st.syncData with
    timeouts := match eNorm with
      | some t => setA st.syncData.timeouts userId t
      | none => eraseA st.syncData.timeouts userId }
  let r := syncTimeoutsLoop env now userId eNorm st.guilds []
  { st := { st with syncData := sd, savedData := some sd, guilds := r.1 }
    acts := r.2.1
    msgs := [logMsg] ++ r.2.2 ++ [Msg.dateLine] }

/-!  ## Muted-role replicator (`syncMutedRole`, src/main.ts lines 141-199)  -/

/-- The id of the role `guild.roles.create({name: MUTED_ROLE_NAME, ...})`
creates in guild `g` (fresh-id generation made deterministic). -/
def freshMutedRole (g : Guild) : Role :=
  { id := g.id ++ ":muted", name := MUTED_ROLE_NAME }

/-- The muted-role id `syncMutedRole`/the revert paths end up using in guild
`g`: the first cached role named `Muted`, or the freshly created one. -/
def resolveMutedRoleId (g : Guild) : String :=
  match g.roles.find? (fun r => r.name = MUTED_ROLE_NAME) with
  | some r => r.id
  | none => (freshMutedRole g).id

/-- The add-or-remove body shared by `syncMutedRole`'s guild loop once the
muted role handle `r` is known (guarded by the enclosing `try`/`catch`). -/
def muteAdjust (env : ApiEnv) (userId : String) (muted : Bool) (g : Guild)
    (m : Member) (r : Role) : Guild × List Act × Option Msg :=
  if muted then
    if m.roles.any (fun x => x.id = r.id) then (g, [], none)
    else if env.roleAddFails g.id userId then
      (g, [Act.roleAdd g.id userId r.id], none)
    else
      let m' := { m with roles := m.roles ++ [r] }
      (g.setMember m', [Act.roleAdd g.id userId r.id],
        some (Msg.muteAdded m.displayName g.name))
  else
    if m.roles.any (fun x => x.id = r.id) then
      if env.roleRemoveFails g.id userId then
        (g, [Act.roleRemove g.id userId r.id], none)
      else
        let m' := { m with roles := m.roles.filter (fun x => x.id ≠ r.id) }
        (g.setMember m', [Act.roleRemove g.id userId r.id],
          some (Msg.muteRemoved m.displayName g.name))
    else (g, [], none)

/-- The body of one iteration of the guild loop of `syncMutedRole`,
including the origin-guild skip and the `try`/`catch`.  Returns the guild's
new state, issued calls, immediately-sent messages (the created-role report)
and the entry pushed onto `mutedRoleMsg` (if any). -/
def syncMutedRoleGuild (env : ApiEnv) (userId : String) (muted : Bool)
    (originGuildId : String) (g : Guild) :
    Guild × List Act × List Msg × Option Msg :=
  if g.id = originGuildId then (g, [], [], none)
  else
    match fetchMember env g userId with
    | none => (g, [], [], none)
    | some m =>
      match g.roles.find? (fun r => r.name = MUTED_ROLE_NAME) with
      | some r =>
        let a := muteAdjust env userId muted g m r
        (a.1, a.2.1, [], a.2.2)
      | none =>
        if env.roleCreateFails g.id then
          -- creation threw: caught by the per-guild catch
          (g, [Act.roleCreate g.id MUTED_ROLE_NAME], [], none)
        else
          let r := freshMutedRole g
          let g1 := { g with roles := g.roles ++ [r] }
          let a := muteAdjust env userId muted g1 m r
          (a.1, Act.roleCreate g.id MUTED_ROLE_NAME :: a.2.1,
            [Msg.mutedRoleCreated g.name], a.2.2)

/-- The guild loop of `syncMutedRole`, threading `mutedRoleMsg` (the header
is pushed with the first entry) and collecting immediate reports. -/
def syncMutedRoleLoop (env : ApiEnv) (userId : String) (muted : Bool)
    (originGuildId : String) :
    List Guild → List Msg → List Guild × List Act × List Msg × List Msg
  | [], block => ([], [], [], block)
  | g :: gs, block =>
    let r := syncMutedRoleGuild env userId muted originGuildId g
    let block1 := match r.2.2.2 with
      | some e => (if block.isEmpty then [Msg.muteHeader] else block) ++ [e]
      | none => block
    let rest := syncMutedRoleLoop env userId muted originGuildId gs block1
    (r.1 :: rest.1, r.2.1 ++ rest.2.1, r.2.2.1 ++ rest.2.2.1, rest.2.2.2)

/-- `syncMutedRole(userId, muted, originGuildId, logMessage)` (src/main.ts
lines 141-199): reentrancy-guard no-op, mark owned, persist the canonical
mute record, sweep every non-origin guild, emit the summary, clear
ownership. -/
def syncMutedRole (env : ApiEnv) (userId : String) (muted : Bool)
    (originGuildId : String) (logMsg : Msg) (st : BotState) : Res :=
  if st.processingUsers.contains userId then { st := st, acts := [], msgs := [] }
  else
    let procs := procAdd st.processingUsers userId
    let sd := { st.syncData with
      mutedRoles := setA st.syncData.mutedRoles userId
        { muted := muted, originGuildId := originGuildId } }
    let r := syncMutedRoleLoop env userId muted originGuildId st.guilds []
    let st' := { st with syncData := sd, savedData := some sd, guilds := r.1, processingUsers := procDel procs userId }
    { st := st'
      acts := r.2.1
      msgs := r.2.2.1 ++ [logMsg] ++ r.2.2.2 ++ [Msg.dateLine] }

/-!  ## Ban replicator, earlier revision (`syncBans` at src/main.ts lines
607-642, embedded as `syncBansEarly`)  -/

/-- The body of one iteration of the guild loop of the earlier-revision
`syncBans`, including its `try`/`catch`.  The member fetch happens before
the ban mutation in this revision. -/
def syncBansEarlyGuild (env : ApiEnv) (userId : String) (banned : Bool)
    (g : Guild) : Guild × List Act × Option Msg :=
  let mem := fetchMember env g userId
  if banned then
    if env.banCreateFails g.id userId then
      (g, [Act.banCreate g.id userId], none)
    else
      let g' := g.addBan userId
      match mem with
      | some m => (g', [Act.banCreate g.id userId], some (Msg.earlyBanned m.displayName g.name))
      | none => (g', [Act.banCreate g.id userId], none)
  else
    if env.banRemoveFails g.id userId || !(g.bans.contains userId) then
      (g, [Act.banRemove g.id userId], none)
    else
      let g' := g.removeBan userId
      if env.resolveUser userId then
        (g', [Act.banRemove g.id userId], some (Msg.earlyUnbanned userId g.name))
      else (g', [Act.banRemove g.id userId], none)

/-- The guild loop of the earlier-revision `syncBans` (no header line; the
per-guild newline handling of the source only affects string formatting and
is absorbed by the list structure). -/
def syncBansEarlyLoop (env : ApiEnv) (userId : String) (banned : Bool) :
    List Guild → List Guild × List Act × List Msg
  | [] => ([], [], [])
  | g :: gs =>
    let r := syncBansEarlyGuild env userId banned g
    let rest := syncBansEarlyLoop env userId banned gs
    (r.1 :: rest.1, r.2.1 ++ rest.2.1, r.2.2.toList ++ rest.2.2)

/-- `syncBans(userId, banned)`, earlier revision (src/main.ts lines
607-642): set the canonical flag, persist, sweep every guild, report the
accumulated message only when non-empty. -/
def syncBansEarly (env : ApiEnv) (userId : String) (banned : Bool)
    (st : BotState) : Res :=
  let sd := { st.syncData with bans := setA st.syncData.bans userId banned }
  let r := syncBansEarlyLoop env userId banned st.guilds
  { st := { st with syncData := sd, savedData := some sd, guilds := r.1 }
    acts := r.2.1
    msgs := r.2.2 }

/-!  ## Event handlers (src/main.ts lines 227-335)  -/

/-- `client.on('guildBanAdd', ...)` (src/main.ts lines 227-238): skip when
the user is already banned globally, otherwise invoke the ban replicator
with the event's guild as origin.  The reentrancy guard is not consulted. -/
def guildBanAdd (env : ApiEnv) (guildId userId : String) (st : BotState) : Res :=
  if truthyBan (lookupA st.syncData.bans userId) then
    { st := st, acts := [], msgs := [] }
  else syncBans env userId true (Msg.banAddLog userId guildId) guildId st

/-- `client.on('guildBanRemove', ...)` (src/main.ts lines 241-253). -/
def guildBanRemove (env : ApiEnv) (guildId userId : String) (st : BotState) : Res :=
  if !truthyBan (lookupA st.syncData.bans userId) then
    { st := st, acts := [], msgs := [] }
  else syncBans env userId false (Msg.banRemoveLog userId guildId) guildId st

/-- The add-or-remove tail of the non-origin revert path of
`guildMemberUpdate` (src/main.ts lines 316-332): guard already set in `st`;
the role mutations are NOT inside any `try`/`catch`, so a failure escapes
the handler with the guard still set. -/
def revertApply (env : ApiEnv) (userId guildId : String) (rec : MuteRecord)
    (g : Guild) (mem : Member) (r : Role) (st : BotState) (acts0 : List Act)
    (msgs0 : List Msg) : Res :=
  if rec.muted then
    if mem.roles.any (fun x => x.id = r.id) then
      { st := { st with processingUsers := procDel st.processingUsers userId }
        acts := acts0, msgs := msgs0 }
    else if env.roleAddFails guildId userId then
      { st := st, acts := acts0 ++ [Act.roleAdd guildId userId r.id]
        msgs := msgs0, threw := true }
    else
      let mem' := { mem with roles := mem.roles ++ [r] }
      let st2 := { st with guilds := updateGuild st.guilds guildId (g.setMember mem') }
      { st := { st2 with processingUsers := procDel st2.processingUsers userId }
        acts := acts0 ++ [Act.roleAdd guildId userId r.id]
        msgs := msgs0 ++ [Msg.muteReadded userId guildId] }
  else
    if mem.roles.any (fun x => x.id = r.id) then
      if env.roleRemoveFails guildId userId then
        { st := st, acts := acts0 ++ [Act.roleRemove guildId userId r.id]
          msgs := msgs0, threw := true }
      else
        let mem' := { mem with roles := mem.roles.filter (fun x => x.id ≠ r.id) }
        let st2 := { st with guilds := updateGuild st.guilds guildId (g.setMember mem') }
        { st := { st2 with processingUsers := procDel st2.processingUsers userId }
          acts := acts0 ++ [Act.roleRemove guildId userId r.id]
          msgs := msgs0 ++ [Msg.muteRemovedRevert userId guildId] }
    else
      { st := { st with processingUsers := procDel st.processingUsers userId }
        acts := acts0, msgs := msgs0 }

/-- The non-origin revert path of `guildMemberUpdate` (src/main.ts lines
299-333): find or create the muted role (role creation here is outside any
`try`/`catch`), set the guard, force the member's role possession back to
the canonical value, clear the guard.  The canonical record is not
touched. -/
def revertNonOrigin (env : ApiEnv) (userId guildId : String)
    (rec : MuteRecord) (st : BotState) (acts0 : List Act) (msgs0 : List Msg) :
    Res :=
  let msgs1 := msgs0 ++ [Msg.revertDetected userId guildId]
  match findGuild st guildId with
  | none => { st := st, acts := acts0, msgs := msgs1 }
  | some g =>
    match g.members.find? (fun m => m.id = userId) with
    | none => { st := st, acts := acts0, msgs := msgs1 }
    | some mem =>
      match g.roles.find? (fun r => r.name = MUTED_ROLE_NAME) with
      | some r =>
        let st1 := { st with processingUsers := procAdd st.processingUsers userId }
        revertApply env userId guildId rec g mem r st1 acts0 msgs1
      | none =>
        if env.roleCreateFails g.id then
          { st := st, acts := acts0 ++ [Act.roleCreate g.id MUTED_ROLE_NAME]
            msgs := msgs1, threw := true }
        else
          let r := freshMutedRole g
          let g1 := { g with roles := g.roles ++ [r] }
          let st1 := { st with guilds := updateGuild st.guilds guildId g1 }
          let st2 := { st1 with processingUsers := procAdd st1.processingUsers userId }
          revertApply env userId guildId rec g1 mem r st2
            (acts0 ++ [Act.roleCreate g.id MUTED_ROLE_NAME])
            (msgs1 ++ [Msg.mutedRoleCreated g.name])

/-- `client.on('guildMemberUpdate', ...)` (src/main.ts lines 256-335).
The event carries the old member snapshot (its timeout and whether it held a
role named `Muted`); the new member is the live cached member, read from the
state.  The timeout branch never consults the reentrancy guard; the
muted-role branch discards the event for guard-owned users. -/
def guildMemberUpdate (env : ApiEnv) (now : Nat) (guildId userId : String)
    (oldTimeout : Option Nat) (oldHasMuted : Bool) (st : BotState) : Res :=
  match findGuild st guildId with
  | none => { st := st, acts := [], msgs := [] }
  | some g0 =>
  match g0.members.find? (fun m => m.id = userId) with
  | none => { st := st, acts := [], msgs := [] }
  | some newMember =>
    let newTimeout := newMember.timeoutUntil
    let r1 : Res :=
      if oldTimeout ≠ newTimeout then
        syncTimeouts env now userId newTimeout (Msg.timeoutUpdateLog userId guildId) st
      else { st := st, acts := [], msgs := [] }
    let hasMuted := newMember.roles.any (fun x => x.name = MUTED_ROLE_NAME)
    if oldHasMuted = hasMuted then r1
    else if r1.st.processingUsers.contains userId then r1
    else
      match lookupA r1.st.syncData.mutedRoles userId with
      | none =>
        let r2 := syncMutedRole env userId hasMuted guildId
          (Msg.muteChangeLog userId guildId) r1.st
        { st := r2.st, acts := r1.acts ++ r2.acts, msgs := r1.msgs ++ r2.msgs }
      | some rec =>
        if rec.originGuildId = guildId then
          let r2 := syncMutedRole env userId hasMuted guildId
            (Msg.muteChangeLog userId guildId) r1.st
          { st := r2.st, acts := r1.acts ++ r2.acts, msgs := r1.msgs ++ r2.msgs }
        else
          revertNonOrigin env userId guildId rec r1.st r1.acts r1.msgs

/-!  ## Reconciliation pass (`periodicSync`, later revision, src/main.ts
lines 338-458)  -/

/-- The add-or-remove tail of the non-origin correction path of
`periodicSync` (src/main.ts lines 423-438).  Guard already set; the role
mutations sit inside the guild-level `try`, so a failure aborts the rest of
that guild's member loop with the guard still set (`threw := true`). -/
def psCorrectionApply (env : ApiEnv) (userId gid : String) (rec : MuteRecord)
    (g : Guild) (m : Member) (r : Role) (st : BotState) (acts0 : List Act)
    (msgs0 : List Msg) : Res :=
  if rec.muted then
    if m.roles.any (fun x => x.id = r.id) then
      { st := { st with processingUsers := procDel st.processingUsers userId }
        acts := acts0, msgs := msgs0 }
    else if env.roleAddFails gid userId then
      { st := st, acts := acts0 ++ [Act.roleAdd gid userId r.id]
        msgs := msgs0, threw := true }
    else
      let m' := { m with roles := m.roles ++ [r] }
      let st2 := { st with guilds := updateGuild st.guilds gid (g.setMember m') }
      { st := { st2 with processingUsers := procDel st2.processingUsers userId }
        acts := acts0 ++ [Act.roleAdd gid userId r.id]
        msgs := msgs0 ++ [Msg.psCorrectionAdded userId gid] }
  else
    if m.roles.any (fun x => x.id = r.id) then
      if env.roleRemoveFails gid userId then
        { st := st, acts := acts0 ++ [Act.roleRemove gid userId r.id]
          msgs := msgs0, threw := true }
      else
        let m' := { m with roles := m.roles.filter (fun x => x.id ≠ r.id) }
        let st2 := { st with guilds := updateGuild st.guilds gid (g.setMember m') }
        { st := { st2 with processingUsers := procDel st2.processingUsers userId }
          acts := acts0 ++ [Act.roleRemove gid userId r.id]
          msgs := msgs0 ++ [Msg.psCorrectionRemoved userId gid] }
    else
      { st := { st with processingUsers := procDel st.processingUsers userId }
        acts := acts0, msgs := msgs0 }

/-- The non-origin correction path of `periodicSync` (src/main.ts lines
406-439): report, set the guard (before the role lookup, unlike the event
handler's revert path), find or create the role, correct the member, clear
the guard. -/
def psCorrection (env : ApiEnv) (userId gid : String) (rec : MuteRecord)
    (g : Guild) (m : Member) (st : BotState) : Res :=
  let msgs0 := [Msg.psCorrecting userId gid]
  let st1 := { st with processingUsers := procAdd st.processingUsers userId }
  match g.roles.find? (fun r => r.name = MUTED_ROLE_NAME) with
  | some r => psCorrectionApply env userId gid rec g m r st1 [] msgs0
  | none =>
    if env.roleCreateFails g.id then
      { st := st1, acts := [Act.roleCreate g.id MUTED_ROLE_NAME]
        msgs := msgs0, threw := true }
    else
      let r := freshMutedRole g
      let g1 := { g with roles := g.roles ++ [r] }
      let st2 := { st1 with guilds := updateGuild st1.guilds gid g1 }
      psCorrectionApply env userId gid rec g1 m r st2
        [Act.roleCreate g.id MUTED_ROLE_NAME]
        (msgs0 ++ [Msg.mutedRoleCreated g.name])

/-- Processing of one member during the member sweep of `periodicSync`
(src/main.ts lines 366-452): timeout drift detection, then the four
muted-role cases (origin mismatch: report only; non-origin mismatch:
in-place correction; no record and role present: discovery). -/
def psMember (env : ApiEnv) (now : Nat) (gid userId : String) (st : BotState) : Res :=
  match findGuild st gid with
  | none => { st := st, acts := [], msgs := [] }
  | some g =>
  match g.members.find? (fun m => m.id = userId) with
  | none => { st := st, acts := [], msgs := [] }
  | some m =>
    -- let timeoutEnd = member.communicationDisabledUntilTimestamp || null
    let t0 : Option Nat := match m.timeoutUntil with
      | some t => if t = 0 then none else some t
      | none => none
    -- if (timeoutEnd && timeoutEnd <= Date.now()) timeoutEnd = null
    let tEnd : Option Nat := match t0 with
      | some t => if t ≤ now then none else some t
      | none => none
    let stored := lookupA st.syncData.timeouts userId
    let r1 : Res :=
      if stored ≠ tEnd then
        syncTimeouts env now userId tEnd (Msg.psTimeoutLog userId gid) st
      else { st := st, acts := [], msgs := [] }
    let hasMuted := m.roles.any (fun x => x.name = MUTED_ROLE_NAME)
    match lookupA r1.st.syncData.mutedRoles userId with
    | some rec =>
      if gid = rec.originGuildId then
        if rec.muted ≠ hasMuted then
          -- later revision: only a status report, no canonical update and
          -- no replicator call
          { st := r1.st, acts := r1.acts, msgs := r1.msgs ++ [Msg.psOriginMismatch userId gid] }
        else r1
      else
        if hasMuted ≠ rec.muted then
          match findGuild r1.st gid with
          | none => r1
          | some g1 =>
          match g1.members.find? (fun mm => mm.id = userId) with
          | none => r1
          | some m1 =>
            let r2 := psCorrection env userId gid rec g1 m1 r1.st
            { st := r2.st, acts := r1.acts ++ r2.acts
              msgs := r1.msgs ++ r2.msgs, threw := r2.threw }
        else r1
    | none =>
      if hasMuted then
        let r2 := syncMutedRole env userId true gid
          (Msg.psDiscoveredMuteLog userId gid) r1.st
        { st := r2.st, acts := r1.acts ++ r2.acts, msgs := r1.msgs ++ r2.msgs }
      else r1

/-- The member loop of one guild in `periodicSync`: sequential, aborted by
the first escaped exception (which the guild-level `catch` then absorbs). -/
def psMembersLoop (env : ApiEnv) (now : Nat) (gid : String) :
    List String → BotState → Res
  | [], st => { st := st, acts := [], msgs := [] }
  | u :: us, st =>
    let r1 := psMember env now gid u st
    if r1.threw then { r1 with threw := true }
    else
      let r2 := psMembersLoop env now gid us r1.st
      { st := r2.st, acts := r1.acts ++ r2.acts
        msgs := r1.msgs ++ r2.msgs, threw := r2.threw }

/-- The per-guild member sweep of `periodicSync` including its `try`/`catch`
(src/main.ts lines 363-457): fetch the member list, process each member;
any escaped exception is caught here and reported. -/
def psGuildMembers (env : ApiEnv) (now : Nat) (gid : String) (st : BotState) : Res :=
  match findGuild st gid with
  | none => { st := st, acts := [], msgs := [] }
  | some g =>
    if env.fetchMembersFails gid then
      { st := st, acts := [], msgs := [Msg.fetchMembersFailed gid] }
    else
      let r := psMembersLoop env now gid (g.members.map (fun m => m.id)) st
      if r.threw then
        { st := r.st, acts := r.acts, msgs := r.msgs ++ [Msg.fetchMembersFailed gid] }
      else { r with threw := false }

/-- Processing of one discovered ban during the ban sweep of `periodicSync`
(src/main.ts lines 343-355). -/
def psBanUser (env : ApiEnv) (gid userId : String) (st : BotState) : Res :=
  if truthyBan (lookupA st.syncData.bans userId) then
    { st := st, acts := [], msgs := [] }
  else syncBans env userId true (Msg.psNewBanLog userId gid) gid st

/-- Sequential processing of the snapshot of a guild's ban list. -/
def psBanList (env : ApiEnv) (gid : String) :
    List String → BotState → Res
  | [], st => { st := st, acts := [], msgs := [] }
  | u :: us, st =>
    let r1 := psBanUser env gid u st
    let r2 := psBanList env gid us r1.st
    { st := r2.st, acts := r1.acts ++ r2.acts, msgs := r1.msgs ++ r2.msgs }

/-- The ban sweep of `periodicSync` over all guilds, including the per-guild
`try`/`catch` around `guild.bans.fetch()` (src/main.ts lines 340-360). -/
def psBansLoop (env : ApiEnv) : List String → BotState → Res
  | [], st => { st := st, acts := [], msgs := [] }
  | gid :: rest, st =>
    let r1 : Res :=
      match findGuild st gid with
      | none => { st := st, acts := [], msgs := [] }
      | some g =>
        if env.fetchBansFails gid then
          { st := st, acts := [], msgs := [Msg.fetchBansFailed g.name] }
        else psBanList env gid g.bans st
    let r2 := psBansLoop env rest r1.st
    { st := r2.st, acts := r1.acts ++ r2.acts, msgs := r1.msgs ++ r2.msgs }

/-- The member sweep of `periodicSync` over all guilds. -/
def psMembersGuildsLoop (env : ApiEnv) (now : Nat) :
    List String → BotState → Res
  | [], st => { st := st, acts := [], msgs := [] }
  | gid :: rest, st =>
    let r1 := psGuildMembers env now gid st
    let r2 := psMembersGuildsLoop env now rest r1.st
    { st := r2.st, acts := r1.acts ++ r2.acts, msgs := r1.msgs ++ r2.msgs }

/-- `periodicSync()` (later revision, src/main.ts lines 338-458): the ban
sweep followed by the timeout/muted-role member sweep. -/
def periodicSync (env : ApiEnv) (now : Nat) (st : BotState) : Res :=
  let gids := st.guilds.map (fun g => g.id)
  let r1 := psBansLoop env gids st
  let r2 := psMembersGuildsLoop env now gids r1.st
  { st := r2.st, acts := r1.acts ++ r2.acts, msgs := r1.msgs ++ r2.msgs }

/-!  ## Snapshot-store byte-level model (`saveData`/`loadData`,
src/main.ts lines 46-56)  -/

/-- Textual encoding of one `bans` entry. -/
def serializeBanEntries : List (String × Bool) → String
  | [] => ""
  | (u, b) :: r => "(" ++ u ++ ":" ++ (if b then "true" else "false") ++ ")" ++ serializeBanEntries r

/-- Textual encoding of one `timeouts` entry. -/
def serializeTimeoutEntries : List (String × Nat) → String
  | [] => ""
  | (u, t) :: r => "(" ++ u ++ ":" ++ toString t ++ ")" ++ serializeTimeoutEntries r

/-- Textual encoding of one `mutedRoles` entry. -/
def serializeMuteEntries : List (String × MuteRecord) → String
  | [] => ""
  | (u, m) :: r =>
      "(" ++ u ++ ":" ++ (if m.muted then "true" else "false") ++ ":" ++ m.originGuildId ++ ")"
        ++ serializeMuteEntries r

/-- Deterministic textual encoding of the snapshot, standing in for
`JSON.stringify(syncData, null, 2)`: an injective rendering whose exact
shape is irrelevant to the claims about `saveData`. -/
def serializeSyncData (sd : SyncData) : String :=
  "[bans:" ++ serializeBanEntries sd.bans
    ++ ",timeouts:" ++ serializeTimeoutEntries sd.timeouts
    ++ ",mutedRoles:" ++ serializeMuteEntries sd.mutedRoles ++ "]"

/-- Whether the single `fs.writeFileSync` call of `saveData` ran to
completion or was interrupted after `k` bytes (the file is truncated first,
so an interrupted write leaves exactly the prefix written so far). -/
inductive WriteOutcome where
  | completed
  | interrupted (k : Nat)
deriving DecidableEq, Repr

/-- The bytes of `data/syncData.json` after `saveData` with outcome `w`. -/
def fileAfterSave (sd : SyncData) (w : WriteOutcome) : String :=
  match w with
  | WriteOutcome.completed => serializeSyncData sd
  | WriteOutcome.interrupted k => (serializeSyncData sd).take k

/-- Whether a subsequent `loadData` observes exactly snapshot `sd` in the
given file contents (`JSON.parse` recovers `sd` precisely when the file
holds its complete serialization). -/
def loadObserves (file : String) (sd : SyncData) : Bool :=
  file == serializeSyncData sd

/-- The propagation entries `syncBans` pushes, guild by guild. -/
def banEntriesOf (env : ApiEnv) (u : String) (b : Bool) (o : String)
    (gs : List Guild) : List Msg :=
  gs.flatMap (fun g => ((syncBansGuild env u b o g).2.2).toList)

/-- Whether the member with id `uid` in guild `gid` currently possesses the
role with id `rid`. -/
def memberHasRoleId (st : BotState) (gid uid rid : String) : Bool :=
  match findGuild st gid with
  | some g =>
    match g.members.find? (fun x => x.id = uid) with
    | some m => m.roles.any (fun x => x.id = rid)
    | none => false
  | none => false

/-!  ## Concrete fixtures for the claim evaluations  -/

def exSdEmpty : SyncData := { bans := [], timeouts := [], mutedRoles := [] }

def exMember : Member := { id := "u", displayName := "U", timeoutUntil := none, roles := [] }

def exGuild : Guild := { id := "g1", name := "G1", roles := [], members := [exMember], bans := [] }

def exStGuarded : BotState :=
  { syncData := exSdEmpty, savedData := none, processingUsers := ["u"], guilds := [exGuild] }

def exStPlain : BotState :=
  { syncData := exSdEmpty, savedData := none, processingUsers := [], guilds := [exGuild] }

def exGuildBanned : Guild := { id := "g1", name := "G1", roles := [], members := [], bans := ["u"] }

def exStBanned : BotState :=
  { syncData := exSdEmpty, savedData := none, processingUsers := [], guilds := [exGuildBanned] }

def exMutedRoleR : Role := { id := "r1", name := "Muted" }

def exGuildMuted : Guild :=
  { id := "g1", name := "G1", roles := [exMutedRoleR], members := [exMember], bans := [] }

def exSdOrigin : SyncData :=
  { bans := [], timeouts := [], mutedRoles := [("u", { muted := true, originGuildId := "g1" })] }

def exStOrigin : BotState :=
  { syncData := exSdOrigin, savedData := none, processingUsers := [], guilds := [exGuildMuted] }

def exSdNonOrigin : SyncData :=
  { bans := [], timeouts := [], mutedRoles := [("u", { muted := true, originGuildId := "g0" })] }

def exStNonOrigin : BotState :=
  { syncData := exSdNonOrigin, savedData := none, processingUsers := [], guilds := [exGuildMuted] }

def exLeakEnv : ApiEnv :=
  { ApiEnv.ok with roleAddFails := fun g v => g == "g1" && v == "u" }

def exSd2 : SyncData := { bans := [("u", true)], timeouts := [], mutedRoles := [] }

/-- Which guilds the later-revision `syncBans` lists in its status summary:
exactly the non-origin guilds where the ban/unban call completed (for unbans
additionally those where a ban existed and the removed user resolved) —
independent, for bans, of whether the guild was already in the banned
state. -/
def listedInBanSummary (env : ApiEnv) (u : String) (b : Bool) (o : String) (g : Guild) : Bool :=
  if b then !env.banCreateFails g.id u && decide (g.id ≠ o)
  else !env.banRemoveFails g.id u && g.bans.contains u && env.resolveUser u && decide (g.id ≠ o)

/-!  ## Association-list and list helper lemmas  -/

theorem lookupA_setA_self {α : Type} (l : List (String × α)) (k : String) (v : α) :
    lookupA (setA l k v) k = some v := by
  induction l with
  | nil => simp [setA, lookupA]
  | cons h t ih =>
    obtain ⟨k', v'⟩ := h
    by_cases hk : k' = k
    · simp [setA, hk, lookupA]
    · simp [setA, hk, lookupA, ih]

theorem lookupA_eraseA_self {α : Type} (l : List (String × α)) (k : String) :
    lookupA (eraseA l k) k = none := by
  induction l with
  | nil => simp [eraseA, lookupA]
  | cons h t ih =>
    obtain ⟨k', v'⟩ := h
    by_cases hk : k' = k
    · simp [eraseA, hk, ih]
    · simp [eraseA, hk, lookupA, ih]

theorem setA_setA_self {α : Type} (l : List (String × α)) (k : String) (v : α) :
    setA (setA l k v) k v = setA l k v := by
  induction l with
  | nil => simp [setA]
  | cons h t ih =>
    obtain ⟨k', v'⟩ := h
    by_cases hk : k' = k
    · simp [setA, hk]
    · simp [setA, hk, ih]

theorem contains_filter_ne (l : List String) (u : String) :
    (l.filter (fun x => x ≠ u)).contains u = false := by
  induction l with
  | nil => rfl
  | cons x t ih =>
    by_cases hx : x = u
    · simpa [List.filter_cons, hx] using ih
    · have hd : (decide (x ≠ u)) = true := by simp [hx]
      simp only [List.filter_cons, hd, if_true, List.contains_cons, ih, Bool.or_false]
      simp [beq_iff_eq]
      exact fun hh => hx hh.symm

theorem filter_ne_of_contains_false (l : List String) (u : String)
    (h : l.contains u = false) : l.filter (fun x => x ≠ u) = l := by
  induction l with
  | nil => rfl
  | cons x t ih =>
    rw [List.contains_cons] at h
    obtain ⟨h1, h2⟩ := Bool.or_eq_false_iff.mp h
    have hx : ¬ x = u := by
      intro hh; rw [hh] at h1; simp at h1
    have hd : (decide (x ≠ u)) = true := by simp [hx]
    rw [List.filter_cons, hd, if_pos rfl, ih h2]

theorem procDel_procAdd_of_not (l : List String) (u : String)
    (h : l.contains u = false) : procDel (procAdd l u) u = l := by
  simp only [procAdd, procDel, h, Bool.false_eq_true, if_false]
  rw [List.filter_cons]
  have hu : (decide (u ≠ u)) = false := by simp
  rw [hu]
  simp only [Bool.false_eq_true, if_false]
  exact filter_ne_of_contains_false l u h

theorem contains_procDel (l : List String) (u : String) :
    (procDel l u).contains u = false := contains_filter_ne l u

theorem find?_map_replace (u : String) (m' : Member) (hm' : m'.id = u) :
    ∀ (l : List Member) (m : Member), l.find? (fun x => x.id = u) = some m →
      (l.map (fun x => if x.id = u then m' else x)).find? (fun x => x.id = u) = some m' := by
  intro l
  induction l with
  | nil => intro m h; simp [List.find?] at h
  | cons x t ih =>
    intro m h
    by_cases hx : x.id = u
    · simp [List.find?_cons, hx, hm']
    · have hd : (decide (x.id = u)) = false := by simp [hx]
      simp only [List.map, if_neg hx, List.find?_cons, hd] at h ⊢
      exact ih _ h

theorem find?_map_replace_guild (gid : String) (g' : Guild) (hg' : g'.id = gid) :
    ∀ (l : List Guild) (g : Guild), l.find? (fun x => x.id = gid) = some g →
      (l.map (fun x => if x.id = gid then g' else x)).find? (fun x => x.id = gid) = some g' := by
  intro l
  induction l with
  | nil => intro g h; simp [List.find?] at h
  | cons x t ih =>
    intro g h
    by_cases hx : x.id = gid
    · simp [List.find?_cons, hx, hg']
    · have hd : (decide (x.id = gid)) = false := by simp [hx]
      simp only [List.map, if_neg hx, List.find?_cons, hd] at h ⊢
      exact ih _ h

theorem find?_roles_append_fresh (rs : List Role) (r : Role)
    (h : rs.find? (fun x => x.name = MUTED_ROLE_NAME) = none)
    (hr : r.name = MUTED_ROLE_NAME) :
    (rs ++ [r]).find? (fun x => x.name = MUTED_ROLE_NAME) = some r := by
  rw [List.find?_append, h]
  simp [List.find?_cons, hr]

theorem any_filter_ne_id (l : List Role) (rid : String) :
    (l.filter (fun x => x.id ≠ rid)).any (fun x => x.id = rid) = false := by
  induction l with
  | nil => rfl
  | cons x t ih =>
    by_cases hx : x.id = rid
    · simpa [List.filter_cons, hx] using ih
    · have hd : (decide (x.id ≠ rid)) = true := by simp [hx]
      simp [List.filter_cons, hd, List.any_cons, hx, ih]

/-!  ## Loop decomposition lemmas: each guild of a sweep is processed
independently of the others  -/

theorem syncBansLoop_guilds (env : ApiEnv) (u : String) (b : Bool) (o : String) :
    ∀ (gs : List Guild) (msgs : List Msg),
      (syncBansLoop env u b o gs msgs).1 = gs.map (fun g => (syncBansGuild env u b o g).1) := by
  intro gs
  induction gs with
  | nil => intro msgs; rfl
  | cons g t ih => intro msgs; simp [syncBansLoop, ih]

theorem syncBansLoop_acts (env : ApiEnv) (u : String) (b : Bool) (o : String) :
    ∀ (gs : List Guild) (msgs : List Msg),
      (syncBansLoop env u b o gs msgs).2.1
        = gs.flatMap (fun g => (syncBansGuild env u b o g).2.1) := by
  intro gs
  induction gs with
  | nil => intro msgs; rfl
  | cons g t ih => intro msgs; simp [syncBansLoop, ih]

theorem syncBansLoop_msgs_nonempty (env : ApiEnv) (u : String) (b : Bool) (o : String) :
    ∀ (gs : List Guild) (msgs : List Msg), msgs ≠ [] →
      (syncBansLoop env u b o gs msgs).2.2 = msgs ++ banEntriesOf env u b o gs := by
  intro gs
  induction gs with
  | nil => intro msgs _; simp [syncBansLoop, banEntriesOf]
  | cons g t ih =>
    intro msgs hm
    simp only [syncBansLoop, banEntriesOf, List.flatMap_cons]
    cases he : (syncBansGuild env u b o g).2.2 with
    | none => simp [he, ih msgs hm, banEntriesOf]
    | some e =>
      have hne : msgs.isEmpty = false := by
        cases msgs with
        | nil => exact absurd rfl hm
        | cons a l => rfl
      simp only [he, hne, Bool.false_eq_true, if_false]
      rw [ih (msgs ++ [e]) (by simp)]
      simp [banEntriesOf, Option.toList]

theorem syncBansLoop_msgs_nil (env : ApiEnv) (u : String) (b : Bool) (o : String) :
    ∀ (gs : List Guild),
      (syncBansLoop env u b o gs []).2.2
        = if (banEntriesOf env u b o gs).isEmpty then []
          else Msg.banHeader b :: banEntriesOf env u b o gs := by
  intro gs
  induction gs with
  | nil => rfl
  | cons g t ih =>
    simp only [syncBansLoop, banEntriesOf, List.flatMap_cons]
    cases he : (syncBansGuild env u b o g).2.2 with
    | none =>
      simp only [he, Option.toList, List.nil_append]
      exact ih
    | some e =>
      simp only [he, List.isEmpty_nil, if_true]
      rw [syncBansLoop_msgs_nonempty env u b o t ([Msg.banHeader b] ++ [e]) (by simp)]
      simp [banEntriesOf, Option.toList]

theorem syncTimeoutsLoop_guilds (env : ApiEnv) (now : Nat) (u : String) (e : Option Nat) :
    ∀ (gs : List Guild) (msgs : List Msg),
      (syncTimeoutsLoop env now u e gs msgs).1
        = gs.map (fun g => (syncTimeoutsGuild env now u e g).1) := by
  intro gs
  induction gs with
  | nil => intro msgs; rfl
  | cons g t ih => intro msgs; simp [syncTimeoutsLoop, ih]

theorem syncTimeoutsLoop_acts (env : ApiEnv) (now : Nat) (u : String) (e : Option Nat) :
    ∀ (gs : List Guild) (msgs : List Msg),
      (syncTimeoutsLoop env now u e gs msgs).2.1
        = gs.flatMap (fun g => (syncTimeoutsGuild env now u e g).2.1) := by
  intro gs
  induction gs with
  | nil => intro msgs; rfl
  | cons g t ih => intro msgs; simp [syncTimeoutsLoop, ih]

theorem syncMutedRoleLoop_guilds (env : ApiEnv) (u : String) (mu : Bool) (o : String) :
    ∀ (gs : List Guild) (block : List Msg),
      (syncMutedRoleLoop env u mu o gs block).1
        = gs.map (fun g => (syncMutedRoleGuild env u mu o g).1) := by
  intro gs
  induction gs with
  | nil => intro block; rfl
  | cons g t ih => intro block; simp [syncMutedRoleLoop, ih]

theorem syncMutedRoleLoop_acts (env : ApiEnv) (u : String) (mu : Bool) (o : String) :
    ∀ (gs : List Guild) (block : List Msg),
      (syncMutedRoleLoop env u mu o gs block).2.1
        = gs.flatMap (fun g => (syncMutedRoleGuild env u mu o g).2.1) := by
  intro gs
  induction gs with
  | nil => intro block; rfl
  | cons g t ih => intro block; simp [syncMutedRoleLoop, ih]

theorem syncBansEarlyLoop_guilds (env : ApiEnv) (u : String) (b : Bool) :
    ∀ (gs : List Guild),
      (syncBansEarlyLoop env u b gs).1
        = gs.map (fun g => (syncBansEarlyGuild env u b g).1) := by
  intro gs
  induction gs with
  | nil => rfl
  | cons g t ih => simp [syncBansEarlyLoop, ih]

theorem syncBansEarlyLoop_acts (env : ApiEnv) (u : String) (b : Bool) :
    ∀ (gs : List Guild),
      (syncBansEarlyLoop env u b gs).2.1
        = gs.flatMap (fun g => (syncBansEarlyGuild env u b g).2.1) := by
  intro gs
  induction gs with
  | nil => rfl
  | cons g t ih => simp [syncBansEarlyLoop, ih]

/-!  ## Equivalence of the two `syncBans` revisions  -/

theorem syncBansGuild_eq_early (env : ApiEnv) (u : String) (b : Bool) (o : String) (g : Guild) :
    (syncBansGuild env u b o g).1 = (syncBansEarlyGuild env u b g).1
    ∧ (syncBansGuild env u b o g).2.1 = (syncBansEarlyGuild env u b g).2.1 := by
  unfold syncBansGuild syncBansEarlyGuild
  cases b <;> simp only [Bool.false_eq_true, if_false, if_true]
  · split
    · simp
    · split <;> split <;> simp
  · split
    · simp
    · split
      · cases fetchMember env (g.addBan u) u <;> cases fetchMember env g u <;> simp
      · cases fetchMember env g u <;> simp

theorem syncBans_eq_syncBansEarly (env : ApiEnv) (u : String) (b : Bool)
    (lm : Msg) (o : String) (st : BotState) :
    (syncBans env u b lm o st).st = (syncBansEarly env u b st).st
    ∧ (syncBans env u b lm o st).acts = (syncBansEarly env u b st).acts := by
  have hg : (fun g => (syncBansGuild env u b o g).1) = fun g => (syncBansEarlyGuild env u b g).1 :=
    funext fun g => (syncBansGuild_eq_early env u b o g).1
  have ha : (fun g => (syncBansGuild env u b o g).2.1) = fun g => (syncBansEarlyGuild env u b g).2.1 :=
    funext fun g => (syncBansGuild_eq_early env u b o g).2
  constructor
  · simp only [syncBans, syncBansEarly, syncBansLoop_guilds, syncBansEarlyLoop_guilds, hg]
  · simp only [syncBans, syncBansEarly, syncBansLoop_acts, syncBansEarlyLoop_acts, ha]

theorem fetchMember_agree (e₁ e₂ : ApiEnv) (g : Guild) (u : String)
    (h : ∀ v, e₁.fetchMemberFails g.id v = e₂.fetchMemberFails g.id v) :
    fetchMember e₁ g u = fetchMember e₂ g u := by
  simp [fetchMember, h u]

theorem fetchMember_addBan (env : ApiEnv) (g : Guild) (v u : String) :
    fetchMember env (g.addBan v) u = fetchMember env g u := by
  simp [fetchMember, Guild.addBan]

theorem syncBansGuild_agree (e₁ e₂ : ApiEnv) (u : String) (b : Bool) (o : String)
    (g : Guild) (hA : ApiEnv.AgreeAt g.id e₁ e₂) :
    syncBansGuild e₁ u b o g = syncBansGuild e₂ u b o g := by
  obtain ⟨h1, h2, h3, h4, h5, h6, h7, h8⟩ := hA
  unfold syncBansGuild
  simp only [h1 u, h2 u, h8 u, fetchMember_addBan, fetchMember_agree e₁ e₂ g u h7]

theorem syncTimeoutsGuild_agree (e₁ e₂ : ApiEnv) (now : Nat) (u : String)
    (eN : Option Nat) (g : Guild) (hA : ApiEnv.AgreeAt g.id e₁ e₂) :
    syncTimeoutsGuild e₁ now u eN g = syncTimeoutsGuild e₂ now u eN g := by
  obtain ⟨h1, h2, h3, h4, h5, h6, h7, h8⟩ := hA
  unfold syncTimeoutsGuild
  rw [fetchMember_agree e₁ e₂ g u h7, h3 u]

theorem muteAdjust_agree (e₁ e₂ : ApiEnv) (u : String) (mu : Bool) (g : Guild)
    (m : Member) (r : Role)
    (ha : e₁.roleAddFails g.id u = e₂.roleAddFails g.id u)
    (hr : e₁.roleRemoveFails g.id u = e₂.roleRemoveFails g.id u) :
    muteAdjust e₁ u mu g m r = muteAdjust e₂ u mu g m r := by
  unfold muteAdjust
  rw [ha, hr]

theorem syncMutedRoleGuild_agree (e₁ e₂ : ApiEnv) (u : String) (mu : Bool)
    (o : String) (g : Guild) (hA : ApiEnv.AgreeAt g.id e₁ e₂) :
    syncMutedRoleGuild e₁ u mu o g = syncMutedRoleGuild e₂ u mu o g := by
  obtain ⟨h1, h2, h3, h4, h5, h6, h7, h8⟩ := hA
  unfold syncMutedRoleGuild
  rw [fetchMember_agree e₁ e₂ g u h7, h4]
  cases fetchMember e₂ g u with
  | none => rfl
  | some m =>
    simp only
    cases g.roles.find? (fun r => r.name = MUTED_ROLE_NAME) with
    | some r => simp only [muteAdjust_agree e₁ e₂ u mu g m r (h5 u) (h6 u)]
    | none =>
      simp only
      split
      · rfl
      · have : ({ g with roles := g.roles ++ [freshMutedRole g] } : Guild).id = g.id := rfl
        rw [muteAdjust_agree e₁ e₂ u mu _ m _ (by rw [this]; exact h5 u) (by rw [this]; exact h6 u)]

theorem BotState.ext' {a b : BotState} (h1 : a.syncData = b.syncData)
    (h2 : a.savedData = b.savedData) (h3 : a.processingUsers = b.processingUsers)
    (h4 : a.guilds = b.guilds) : a = b := by
  cases a; cases b
  simp only at h1 h2 h3 h4
  rw [h1, h2, h3, h4]

theorem okBanCreateFails (a b : String) : ApiEnv.ok.banCreateFails a b = false := rfl
theorem okBanRemoveFails (a b : String) : ApiEnv.ok.banRemoveFails a b = false := rfl
theorem okTimeoutFails (a b : String) : ApiEnv.ok.timeoutFails a b = false := rfl
theorem okRoleCreateFails (a : String) : ApiEnv.ok.roleCreateFails a = false := rfl
theorem okRoleAddFails (a b : String) : ApiEnv.ok.roleAddFails a b = false := rfl
theorem okRoleRemoveFails (a b : String) : ApiEnv.ok.roleRemoveFails a b = false := rfl
theorem okResolveUser (a : String) : ApiEnv.ok.resolveUser a = true := rfl

theorem fetchMember_ok (g : Guild) (u : String) :
    fetchMember ApiEnv.ok g u = g.members.find? (fun m => m.id = u) := by
  simp [fetchMember, ApiEnv.ok]

theorem contains_addBan_self (g : Guild) (u : String) :
    (g.addBan u).bans.contains u = true := by
  unfold Guild.addBan
  cases hc : g.bans.contains u with
  | true => simpa using hc
  | false => simp

theorem addBan_addBan (g : Guild) (u : String) :
    (g.addBan u).addBan u = g.addBan u := by
  conv_lhs => rw [Guild.addBan]
  rw [contains_addBan_self]
  simp

theorem syncBansGuild_ok_guild (u : String) (b : Bool) (o : String) (g : Guild) :
    (syncBansGuild ApiEnv.ok u b o g).1
      = if b then g.addBan u else (if g.bans.contains u then g.removeBan u else g) := by
  unfold syncBansGuild
  cases b <;>
    simp only [okBanCreateFails, okBanRemoveFails, okResolveUser, Bool.false_eq_true,
      Bool.false_or, if_false, if_true]
  · cases hc : g.bans.contains u <;> simp [hc] <;> split <;> simp
  · split
    · cases fetchMember ApiEnv.ok (g.addBan u) u <;> simp
    · simp

theorem syncBansGuild_ok_stable (u : String) (b : Bool) (o : String) (g : Guild) :
    (syncBansGuild ApiEnv.ok u b o ((syncBansGuild ApiEnv.ok u b o g).1)).1
      = (syncBansGuild ApiEnv.ok u b o g).1 := by
  rw [syncBansGuild_ok_guild, syncBansGuild_ok_guild]
  cases b
  · simp only [Bool.false_eq_true, if_false]
    cases hc : g.bans.contains u
    · simp only [hc, Bool.false_eq_true, if_false]
    · simp only [hc, if_true, Guild.removeBan, contains_filter_ne]
      simp
  · simp [addBan_addBan]

theorem syncTimeoutsGuild_acts_nil (now : Nat) (u : String) (e : Option Nat)
    (g' : Guild)
    (h : ∀ m', g'.members.find? (fun x => x.id = u) = some m' → m'.timeoutUntil = e) :
    (syncTimeoutsGuild ApiEnv.ok now u e g').2.1 = [] := by
  unfold syncTimeoutsGuild
  rw [fetchMember_ok]
  cases hm : g'.members.find? (fun x => x.id = u) with
  | none => rfl
  | some m' => simp [h m' hm]

theorem syncTimeoutsGuild_ok_post (now : Nat) (u : String) (e : Option Nat)
    (g : Guild) (m' : Member)
    (h : ((syncTimeoutsGuild ApiEnv.ok now u e g).1).members.find? (fun x => x.id = u) = some m') :
    m'.timeoutUntil = e := by
  unfold syncTimeoutsGuild at h
  rw [fetchMember_ok] at h
  cases hm : g.members.find? (fun x => x.id = u) with
  | none =>
    simp only [hm] at h
    exact Option.noConfusion h
  | some m =>
    have hu : m.id = u := by simpa using List.find?_some hm
    simp only [hm] at h
    by_cases ht : m.timeoutUntil = e
    · rw [if_pos ht] at h
      simp only at h
      rw [hm] at h
      cases h
      exact ht
    · rw [if_neg ht] at h
      simp only [okTimeoutFails, Bool.false_eq_true, if_false, Guild.setMember] at h
      rw [show ({ m with timeoutUntil := e } : Member).id = u from hu] at h
      have hrepl := find?_map_replace u
        ({ id := u, displayName := m.displayName, timeoutUntil := e, roles := m.roles } : Member)
        rfl g.members m hm
      rw [hrepl] at h
      cases h
      rfl

theorem muteAdjust_ok_post (u : String) (mu : Bool) (g : Guild) (m : Member) (r : Role)
    (hm : g.members.find? (fun x => x.id = u) = some m) :
    ((muteAdjust ApiEnv.ok u mu g m r).1).id = g.id
    ∧ ((muteAdjust ApiEnv.ok u mu g m r).1).roles = g.roles
    ∧ ∀ m', ((muteAdjust ApiEnv.ok u mu g m r).1).members.find? (fun x => x.id = u) = some m' →
        m'.roles.any (fun x => x.id = r.id) = mu := by
  have hu : m.id = u := by simpa using List.find?_some hm
  unfold muteAdjust
  cases mu
  · rw [if_neg (by simp)]
    cases hposs : m.roles.any (fun x => x.id = r.id)
    · simp only [hposs, Bool.false_eq_true, if_false]
      refine ⟨by trivial, by trivial, ?_⟩
      intro m' hm'
      rw [hm] at hm'
      cases hm'
      exact hposs
    · simp only [hposs, if_true, okRoleRemoveFails, Bool.false_eq_true, if_false, Guild.setMember]
      refine ⟨by trivial, by trivial, ?_⟩
      intro m' hm'
      rw [show ({ m with roles := m.roles.filter (fun x => x.id ≠ r.id) } : Member).id = u from hu] at hm'
      have hrepl := find?_map_replace u
        ({ id := u, displayName := m.displayName, timeoutUntil := m.timeoutUntil,
           roles := m.roles.filter (fun x => x.id ≠ r.id) } : Member) rfl g.members m hm
      rw [hrepl] at hm'
      cases hm'
      exact any_filter_ne_id m.roles r.id
  · rw [if_pos rfl]
    cases hposs : m.roles.any (fun x => x.id = r.id)
    · simp only [Bool.false_eq_true, if_false, okRoleAddFails, Guild.setMember]
      refine ⟨by trivial, by trivial, ?_⟩
      intro m' hm'
      rw [show ({ m with roles := m.roles ++ [r] } : Member).id = u from hu] at hm'
      have hrepl := find?_map_replace u
        ({ id := u, displayName := m.displayName, timeoutUntil := m.timeoutUntil,
           roles := m.roles ++ [r] } : Member) rfl g.members m hm
      rw [hrepl] at hm'
      cases hm'
      simp [List.any_append]
    · rw [if_pos rfl]
      refine ⟨by trivial, by trivial, ?_⟩
      intro m' hm'
      rw [hm] at hm'
      cases hm'
      exact hposs

theorem syncMutedRoleGuild_acts_nil (u : String) (mu : Bool) (o : String) (g' : Guild)
    (h : ¬ g'.id = o → ∀ m', g'.members.find? (fun x => x.id = u) = some m' →
         ∃ r, g'.roles.find? (fun x => x.name = MUTED_ROLE_NAME) = some r
              ∧ m'.roles.any (fun x => x.id = r.id) = mu) :
    (syncMutedRoleGuild ApiEnv.ok u mu o g').2.1 = [] := by
  unfold syncMutedRoleGuild
  by_cases ho : g'.id = o
  · rw [if_pos ho]
  · rw [if_neg ho, fetchMember_ok]
    cases hm : g'.members.find? (fun x => x.id = u) with
    | none => rfl
    | some m' =>
      obtain ⟨r, hr, hposs⟩ := h ho m' hm
      rw [hr]
      simp only
      unfold muteAdjust
      cases mu
      · rw [if_neg (by simp), if_neg (by simp [hposs])]
      · rw [if_pos rfl, if_pos hposs]

theorem syncMutedRoleGuild_ok_post (u : String) (mu : Bool) (o : String) (g : Guild) :
    ((syncMutedRoleGuild ApiEnv.ok u mu o g).1).id = g.id
    ∧ (¬ ((syncMutedRoleGuild ApiEnv.ok u mu o g).1).id = o →
       ∀ m', ((syncMutedRoleGuild ApiEnv.ok u mu o g).1).members.find? (fun x => x.id = u) = some m' →
         ∃ r, ((syncMutedRoleGuild ApiEnv.ok u mu o g).1).roles.find?
                (fun x => x.name = MUTED_ROLE_NAME) = some r
              ∧ m'.roles.any (fun x => x.id = r.id) = mu) := by
  unfold syncMutedRoleGuild
  by_cases ho : g.id = o
  · rw [if_pos ho]
    exact ⟨rfl, fun hne => absurd ho hne⟩
  · rw [if_neg ho, fetchMember_ok]
    cases hm : g.members.find? (fun x => x.id = u) with
    | none =>
      refine ⟨rfl, fun _ m' hm' => ?_⟩
      rw [hm] at hm'
      exact Option.noConfusion hm'
    | some m =>
      cases hr : g.roles.find? (fun x => x.name = MUTED_ROLE_NAME) with
      | some r =>
        obtain ⟨h1, h2, h3⟩ := muteAdjust_ok_post u mu g m r hm
        refine ⟨h1, fun _ m' hm' => ⟨r, ?_, h3 m' hm'⟩⟩
        rw [h2, hr]
      | none =>
        simp only [okRoleCreateFails, Bool.false_eq_true, if_false]
        have hm1 : ({ g with roles := g.roles ++ [freshMutedRole g] } : Guild).members.find?
            (fun x => x.id = u) = some m := hm
        obtain ⟨h1, h2, h3⟩ :=
          muteAdjust_ok_post u mu { g with roles := g.roles ++ [freshMutedRole g] } m
            (freshMutedRole g) hm1
        refine ⟨h1, fun _ m' hm' => ⟨freshMutedRole g, ?_, h3 m' hm'⟩⟩
        rw [h2]
        exact find?_roles_append_fresh g.roles (freshMutedRole g) hr rfl

theorem syncTimeouts_second_acts_nil (now : Nat) (u : String) (e : Option Nat)
    (lm lm2 : Msg) (st : BotState) :
    (syncTimeouts ApiEnv.ok now u e lm2 (syncTimeouts ApiEnv.ok now u e lm st).st).acts = [] := by
  have hgone : ∀ g : Guild,
      (syncTimeoutsGuild ApiEnv.ok now u (normalizeTimeout e now)
        ((syncTimeoutsGuild ApiEnv.ok now u (normalizeTimeout e now) g).1)).2.1 = [] := by
    intro g
    exact syncTimeoutsGuild_acts_nil now u _ _
      (fun m' hm' => syncTimeoutsGuild_ok_post now u _ g m' hm')
  simp only [syncTimeouts]
  rw [syncTimeoutsLoop_acts, syncTimeoutsLoop_guilds, List.flatMap_map]
  simp [hgone]

theorem syncMutedRole_second_acts_nil (u : String) (mu : Bool) (o : String)
    (lm lm2 : Msg) (st : BotState) :
    (syncMutedRole ApiEnv.ok u mu o lm2 (syncMutedRole ApiEnv.ok u mu o lm st).st).acts = [] := by
  have hgone : ∀ g : Guild,
      (syncMutedRoleGuild ApiEnv.ok u mu o ((syncMutedRoleGuild ApiEnv.ok u mu o g).1)).2.1 = [] := by
    intro g
    exact syncMutedRoleGuild_acts_nil u mu o _
      (fun hne m' hm' => (syncMutedRoleGuild_ok_post u mu o g).2 hne m' hm')
  cases hp : st.processingUsers.contains u with
  | true =>
    simp only [syncMutedRole, hp, if_true]
  | false =>
    simp only [syncMutedRole, hp, Bool.false_eq_true, if_false]
    simp only [contains_procDel, Bool.false_eq_true, if_false]
    rw [syncMutedRoleLoop_acts, syncMutedRoleLoop_guilds, List.flatMap_map]
    simp [hgone]

theorem syncBans_second_state (u : String) (b : Bool) (lm lm2 : Msg) (o : String)
    (st : BotState) :
    (syncBans ApiEnv.ok u b lm2 o (syncBans ApiEnv.ok u b lm o st).st).st
      = (syncBans ApiEnv.ok u b lm o st).st := by
  apply BotState.ext'
  · simp only [syncBans]
    simp [setA_setA_self]
  · simp only [syncBans]
    simp [setA_setA_self]
  · simp only [syncBans]
  · simp only [syncBans]
    rw [syncBansLoop_guilds, syncBansLoop_guilds, List.map_map]
    refine List.map_congr_left (fun g _ => ?_)
    simp only [Function.comp]
    exact syncBansGuild_ok_stable u b o g

theorem revertApply_ok_post (u gid : String) (rec : MuteRecord) (g : Guild)
    (m : Member) (r : Role) (st : BotState) (acts0 : List Act) (msgs0 : List Msg)
    (hgid : g.id = gid)
    (HM : g.members.find? (fun x => x.id = u) = some m)
    (HGst : st.guilds.find? (fun x => x.id = gid) = some g) :
    (revertApply ApiEnv.ok u gid rec g m r st acts0 msgs0).st.syncData = st.syncData
    ∧ (revertApply ApiEnv.ok u gid rec g m r st acts0 msgs0).st.savedData = st.savedData
    ∧ (revertApply ApiEnv.ok u gid rec g m r st acts0 msgs0).st.processingUsers
        = procDel st.processingUsers u
    ∧ (revertApply ApiEnv.ok u gid rec g m r st acts0 msgs0).threw = false
    ∧ ∃ g', (revertApply ApiEnv.ok u gid rec g m r st acts0 msgs0).st.guilds.find?
              (fun x => x.id = gid) = some g'
          ∧ g'.roles = g.roles
          ∧ ∃ m', g'.members.find? (fun x => x.id = u) = some m'
               ∧ m'.roles.any (fun x => x.id = r.id) = rec.muted := by
  have hu : m.id = u := by simpa using List.find?_some HM
  unfold revertApply
  cases hrec : rec.muted
  · rw [if_neg (by simp [hrec])]
    cases hposs : m.roles.any (fun x => x.id = r.id)
    · simp only [Bool.false_eq_true, if_false]
      exact ⟨by trivial, by trivial, by trivial, by trivial, g, HGst, rfl, m, HM, hposs⟩
    · simp only [if_true, okRoleRemoveFails, Bool.false_eq_true, if_false]
      refine ⟨by trivial, by trivial, by trivial, by trivial, ?_⟩
      refine ⟨g.setMember { m with roles := m.roles.filter (fun x => x.id ≠ r.id) }, ?_, rfl, ?_⟩
      · exact find?_map_replace_guild gid
          (g.setMember { m with roles := m.roles.filter (fun x => x.id ≠ r.id) })
          hgid st.guilds g HGst
      · refine ⟨{ id := u, displayName := m.displayName, timeoutUntil := m.timeoutUntil,
                  roles := m.roles.filter (fun x => x.id ≠ r.id) }, ?_, ?_⟩
        · simp only [Guild.setMember]
          rw [show ({ m with roles := m.roles.filter (fun x => x.id ≠ r.id) } : Member).id = u from hu]
          exact find?_map_replace u
            ({ id := u, displayName := m.displayName, timeoutUntil := m.timeoutUntil,
               roles := m.roles.filter (fun x => x.id ≠ r.id) } : Member) rfl g.members m HM
        · exact any_filter_ne_id m.roles r.id
  · rw [if_pos (by simp [hrec])]
    cases hposs : m.roles.any (fun x => x.id = r.id)
    · simp only [Bool.false_eq_true, if_false, okRoleAddFails, Guild.setMember]
      refine ⟨by trivial, by trivial, by trivial, by trivial, ?_⟩
      refine ⟨g.setMember { m with roles := m.roles ++ [r] }, ?_, rfl, ?_⟩
      · exact find?_map_replace_guild gid
          (g.setMember { m with roles := m.roles ++ [r] }) hgid st.guilds g HGst
      · refine ⟨{ id := u, displayName := m.displayName, timeoutUntil := m.timeoutUntil,
                  roles := m.roles ++ [r] }, ?_, ?_⟩
        · simp only [Guild.setMember]
          rw [show ({ m with roles := m.roles ++ [r] } : Member).id = u from hu]
          exact find?_map_replace u
            ({ id := u, displayName := m.displayName, timeoutUntil := m.timeoutUntil,
               roles := m.roles ++ [r] } : Member) rfl g.members m HM
        · simp [List.any_append]
    · simp only [if_true]
      exact ⟨by trivial, by trivial, by trivial, by trivial, g, HGst, rfl, m, HM, hposs⟩

theorem memberHasRoleId_of_find (st : BotState) (gid u rid : String) (g' : Guild)
    (m' : Member) (h1 : st.guilds.find? (fun x => x.id = gid) = some g')
    (h2 : g'.members.find? (fun x => x.id = u) = some m') :
    memberHasRoleId st gid u rid = m'.roles.any (fun x => x.id = rid) := by
  unfold memberHasRoleId findGuild
  simp only [h1, h2]

theorem revertNonOrigin_ok_post (u gid : String) (rec : MuteRecord) (st : BotState)
    (g : Guild) (m : Member) (acts0 : List Act) (msgs0 : List Msg)
    (HGst : st.guilds.find? (fun x => x.id = gid) = some g)
    (HM : g.members.find? (fun x => x.id = u) = some m) :
    (revertNonOrigin ApiEnv.ok u gid rec st acts0 msgs0).st.syncData = st.syncData
    ∧ (revertNonOrigin ApiEnv.ok u gid rec st acts0 msgs0).st.savedData = st.savedData
    ∧ (revertNonOrigin ApiEnv.ok u gid rec st acts0 msgs0).st.processingUsers
        = procDel (procAdd st.processingUsers u) u
    ∧ (revertNonOrigin ApiEnv.ok u gid rec st acts0 msgs0).threw = false
    ∧ memberHasRoleId (revertNonOrigin ApiEnv.ok u gid rec st acts0 msgs0).st gid u
        (resolveMutedRoleId g) = rec.muted := by
  have hgid : g.id = gid := by simpa using List.find?_some HGst
  unfold revertNonOrigin
  rw [show findGuild st gid = some g from HGst]
  simp only [HM]
  cases hr : g.roles.find? (fun x => x.name = MUTED_ROLE_NAME) with
  | some r =>
    obtain ⟨p1, p2, p3, p4, g', pg, proles, m', pm, pposs⟩ :=
      revertApply_ok_post u gid rec g m r
        { st with processingUsers := procAdd st.processingUsers u } acts0
        (msgs0 ++ [Msg.revertDetected u gid]) hgid HM HGst
    refine ⟨p1, p2, p3, p4, ?_⟩
    rw [memberHasRoleId_of_find _ gid u _ g' m' pg pm]
    rw [show resolveMutedRoleId g = r.id by unfold resolveMutedRoleId; rw [hr]]
    exact pposs
  | none =>
    simp only [okRoleCreateFails, Bool.false_eq_true, if_false]
    have HGst1 : (updateGuild st.guilds gid { g with roles := g.roles ++ [freshMutedRole g] }).find?
        (fun x => x.id = gid) = some { g with roles := g.roles ++ [freshMutedRole g] } :=
      find?_map_replace_guild gid { g with roles := g.roles ++ [freshMutedRole g] } hgid st.guilds g HGst
    obtain ⟨p1, p2, p3, p4, g', pg, proles, m', pm, pposs⟩ :=
      revertApply_ok_post u gid rec { g with roles := g.roles ++ [freshMutedRole g] } m
        (freshMutedRole g)
        { st with guilds := updateGuild st.guilds gid { g with roles := g.roles ++ [freshMutedRole g] },
                  processingUsers := procAdd st.processingUsers u }
        (acts0 ++ [Act.roleCreate g.id MUTED_ROLE_NAME])
        (msgs0 ++ [Msg.revertDetected u gid] ++ [Msg.mutedRoleCreated g.name]) hgid HM HGst1
    refine ⟨p1, p2, p3, p4, ?_⟩
    rw [memberHasRoleId_of_find _ gid u _ g' m' pg pm]
    rw [show resolveMutedRoleId g = (freshMutedRole g).id by unfold resolveMutedRoleId; rw [hr]]
    exact pposs

theorem all_flatMap {α β : Type} (P : β → Bool) (f : α → List β) (l : List α)
    (h : ∀ a, (f a).all P = true) : (l.flatMap f).all P = true := by
  induction l with
  | nil => rfl
  | cons a t ih => simp [List.flatMap_cons, List.all_append, h a, ih]

theorem syncTimeoutsGuild_acts_all (env : ApiEnv) (now : Nat) (u : String)
    (eN : Option Nat) (g : Guild) :
    ((syncTimeoutsGuild env now u eN g).2.1).all
      (fun a => match a with
        | Act.memberTimeout _ u' d => u' == u && d == eN.map (fun t => t - now)
        | _ => false) = true := by
  unfold syncTimeoutsGuild
  cases hm : fetchMember env g u with
  | none => rfl
  | some m =>
    simp only
    by_cases ht : m.timeoutUntil = eN
    · rw [if_pos ht]
      rfl
    · rw [if_neg ht]
      by_cases hf : env.timeoutFails g.id u = true
      · rw [if_pos hf]
        simp
      · rw [if_neg hf]
        simp

theorem syncTimeouts_processingUsers (env : ApiEnv) (now : Nat) (u : String)
    (e : Option Nat) (lm : Msg) (st : BotState) :
    (syncTimeouts env now u e lm st).st.processingUsers = st.processingUsers := rfl

/-!  ## Claim theorems  -/

/-- Claim C1 (counterexample): a ban-added notification for a user currently
in the reentrancy-guard set is NOT discarded — the handler invokes the ban
replicator, issues a per-server ban mutation and mutates canonical state. -/
theorem c1_counterexample :
    exStGuarded.processingUsers.contains "u" = true
    ∧ (guildBanAdd ApiEnv.ok "g1" "u" exStGuarded).acts = [Act.banCreate "g1" "u"]
    ∧ lookupA (guildBanAdd ApiEnv.ok "g1" "u" exStGuarded).st.syncData.bans "u" = some true := by
  decide

/-- Claim C1 (amended): only muted-role-change notifications routed to the
mute replicator are discarded for a guard-owned user — the member-updated
handler's muted-role branch returns without mutating state, issuing calls,
or reporting, and `syncMutedRole` itself no-ops for owned users — while
ban-added and ban-removed notifications invoke the ban replicator, and the
timeout-change branch of member-updated invokes the timeout replicator,
regardless of guard ownership. -/
theorem c1_amended (env : ApiEnv) (now : Nat) (gid u : String) (oldT : Option Nat)
    (oldHas : Bool) (st : BotState) (g : Guild) (m : Member)
    (HG : findGuild st gid = some g)
    (HM : g.members.find? (fun x => x.id = u) = some m)
    (Ht : oldT = m.timeoutUntil)
    (Htog : oldHas = !(m.roles.any (fun x => x.name = MUTED_ROLE_NAME)))
    (Hp : st.processingUsers.contains u = true) :
    guildMemberUpdate env now gid u oldT oldHas st = { st := st, acts := [], msgs := [] }
    ∧ (∀ st' : BotState, truthyBan (lookupA st'.syncData.bans u) = false →
        guildBanAdd env gid u st' = syncBans env u true (Msg.banAddLog u gid) gid st')
    ∧ (∀ st' : BotState, truthyBan (lookupA st'.syncData.bans u) = true →
        guildBanRemove env gid u st' = syncBans env u false (Msg.banRemoveLog u gid) gid st')
    ∧ (∀ (oldT' : Option Nat) (oldHas' : Bool), oldT' ≠ m.timeoutUntil →
        guildMemberUpdate env now gid u oldT' oldHas' st
          = syncTimeouts env now u m.timeoutUntil (Msg.timeoutUpdateLog u gid) st)
    ∧ (∀ (mu : Bool) (og : String) (lm : Msg),
        syncMutedRole env u mu og lm st = { st := st, acts := [], msgs := [] }) := by
  refine ⟨?_, ?_, ?_, ?_, ?_⟩
  · have hteq : ¬ (oldT ≠ m.timeoutUntil) := by simp [Ht]
    have hneq : ¬ (oldHas = m.roles.any (fun x => x.name = MUTED_ROLE_NAME)) := by
      rw [Htog]
      cases m.roles.any (fun x => x.name = MUTED_ROLE_NAME) <;> simp
    unfold guildMemberUpdate
    simp only [HG, HM]
    rw [if_neg hteq, if_neg hneq]
    simp only [Hp, if_true]
  · intro st' h
    unfold guildBanAdd
    simp only [h, Bool.false_eq_true, if_false]
  · intro st' h
    unfold guildBanRemove
    simp only [h, Bool.not_true, Bool.false_eq_true, if_false]
  · intro oldT' oldHas' hne
    unfold guildMemberUpdate
    simp only [HG, HM]
    rw [if_pos hne]
    by_cases htog' : oldHas' = m.roles.any (fun x => x.name = MUTED_ROLE_NAME)
    · rw [if_pos htog']
    · rw [if_neg htog']
      simp only [syncTimeouts_processingUsers, Hp, if_true]
  · intro mu og lm
    unfold syncMutedRole
    simp only [Hp, if_true]

theorem c1_amended_witness :
    guildMemberUpdate ApiEnv.ok 50 "g1" "u" none true exStGuarded
      = { st := exStGuarded, acts := [], msgs := [] } :=
  (c1_amended ApiEnv.ok 50 "g1" "u" none true exStGuarded exGuild exMember
    (by decide) (by decide) rfl (by decide) (by decide)).1

/-- Claim C2 (counterexample): invoking `syncBans` twice in succession with
the same target value issues the unconditional per-server ban-create call
again on the second invocation. -/
theorem c2_counterexample :
    (syncBans ApiEnv.ok "u" true (Msg.banAddLog "u" "o") "o"
        (syncBans ApiEnv.ok "u" true (Msg.banAddLog "u" "o") "o" exStPlain).st).acts
      = [Act.banCreate "g1" "u"]
    ∧ (syncBans ApiEnv.ok "u" true (Msg.banAddLog "u" "o") "o"
        (syncBans ApiEnv.ok "u" true (Msg.banAddLog "u" "o") "o" exStPlain).st).acts ≠ [] := by
  decide

/-- Claim C2 (amended): with every session call succeeding, `syncTimeouts`
and `syncMutedRole` issue no per-server mutation calls on a second
invocation with the same target value; `syncBans` re-issues its
unconditional ban create/remove calls, but the second invocation leaves the
entire world state unchanged. -/
theorem c2_amended (now : Nat) (u o og : String) (e : Option Nat) (mu b : Bool)
    (lm lm2 : Msg) (st : BotState) :
    (syncTimeouts ApiEnv.ok now u e lm2 (syncTimeouts ApiEnv.ok now u e lm st).st).acts = []
    ∧ (syncMutedRole ApiEnv.ok u mu og lm2 (syncMutedRole ApiEnv.ok u mu og lm st).st).acts = []
    ∧ (syncBans ApiEnv.ok u b lm2 o (syncBans ApiEnv.ok u b lm o st).st).st
        = (syncBans ApiEnv.ok u b lm o st).st :=
  ⟨syncTimeouts_second_acts_nil now u e lm lm2 st,
   syncMutedRole_second_acts_nil u mu og lm lm2 st,
   syncBans_second_state u b lm lm2 o st⟩

/-- Claim C3 (code evaluated at the failing input): during a reconciliation
pass over a state whose canonical mute record says muted on origin guild g1
while the live member carries no muted role, the later-revision
`periodicSync` leaves the canonical record unchanged, issues no mutation and
only emits a status report (whose log text in the source even says "Syncing
across all guilds"). -/
theorem c3_origin_mismatch_only_reports :
    (periodicSync ApiEnv.ok 50 exStOrigin).st.syncData = exStOrigin.syncData
    ∧ (periodicSync ApiEnv.ok 50 exStOrigin).acts = []
    ∧ (periodicSync ApiEnv.ok 50 exStOrigin).msgs = [Msg.psOriginMismatch "u" "g1"]
    ∧ lookupA (periodicSync ApiEnv.ok 50 exStOrigin).st.syncData.mutedRoles "u"
        = some { muted := true, originGuildId := "g1" }
    ∧ exMember.roles.any (fun r => r.name = MUTED_ROLE_NAME) = false := by
  decide

/-- Claim C5: `syncTimeouts` normalizes any absent or non-future expiry to
"no timeout": the canonical entry for the user equals the normalized expiry
(removed when `none`), any stored value is strictly in the future at the
recording instant, and every per-server timeout call carries the duration of
the normalized expiry (`none`, i.e. a clearing call, when normalization
yielded "no timeout"). -/
theorem c5_timeout_normalization (env : ApiEnv) (now : Nat) (u : String)
    (e : Option Nat) (lm : Msg) (st : BotState) :
    lookupA (syncTimeouts env now u e lm st).st.syncData.timeouts u = normalizeTimeout e now
    ∧ (normalizeTimeout e now).all (fun t => decide (now < t)) = true
    ∧ ((syncTimeouts env now u e lm st).acts).all
        (fun a => match a with
          | Act.memberTimeout _ u' d => u' == u && d == (normalizeTimeout e now).map (fun t => t - now)
          | _ => false) = true := by
  refine ⟨?_, ?_, ?_⟩
  · simp only [syncTimeouts]
    cases he : normalizeTimeout e now <;>
      simp [he, lookupA_setA_self, lookupA_eraseA_self]
  · unfold normalizeTimeout
    cases e with
    | none => rfl
    | some t =>
      simp only
      by_cases h : (t != 0 && decide (now < t)) = true
      · rw [if_pos h]
        simpa [Option.all] using ((Bool.and_eq_true _ _).mp h).2
      · rw [if_neg h]
        rfl
  · simp only [syncTimeouts]
    rw [syncTimeoutsLoop_acts]
    exact all_flatMap _ _ _ (fun g => syncTimeoutsGuild_acts_all env now u _ g)

/-- Claim C6 (code evaluated at the failing input): in the non-origin revert
path of the member-update handler, a failing role-add call escapes every
`try`/`catch` and the user is left in the reentrancy-guard set forever; with
the same input and a succeeding call the guard is cleared. -/
theorem c6_guard_leaked_on_role_failure :
    (guildMemberUpdate exLeakEnv 50 "g1" "u" none true exStNonOrigin).st.processingUsers = ["u"]
    ∧ (guildMemberUpdate exLeakEnv 50 "g1" "u" none true exStNonOrigin).threw = true
    ∧ (guildMemberUpdate ApiEnv.ok 50 "g1" "u" none true exStNonOrigin).st.processingUsers = []
    ∧ (guildMemberUpdate ApiEnv.ok 50 "g1" "u" none true exStNonOrigin).threw = false := by
  decide

/-- Claim C8 (counterexample): `syncBans` lists a non-origin server in its
status summary even though that server was already in the desired ban state
and the sweep changed nothing — the summary does not list exactly the
servers whose state a mutation changed. -/
theorem c8_counterexample :
    (syncBans ApiEnv.ok "u" true (Msg.banAddLog "u" "o") "o" exStBanned).st.guilds
      = exStBanned.guilds
    ∧ (syncBans ApiEnv.ok "u" true (Msg.banAddLog "u" "o") "o" exStBanned).msgs
      = [Msg.banAddLog "u" "o", Msg.banHeader true, Msg.banEnforced "G1", Msg.dateLine] := by
  decide

/-- Claim C8 (amended): the summary of `syncBans` consists of the log
message, then (when non-empty) a header followed by one entry per guild in
enumeration order, and a guild gets an entry exactly when it is not the
origin and the ban/unban call succeeded (for unbans additionally when a ban
existed and the removed user resolved): already-banned non-origin servers
are still listed on the ban path, and origin-server changes are never
listed. -/
theorem c8_amended (env : ApiEnv) (u : String) (b : Bool) (lm : Msg) (o : String)
    (st : BotState) :
    (syncBans env u b lm o st).msgs
      = [lm] ++ (if (banEntriesOf env u b o st.guilds).isEmpty then []
                 else Msg.banHeader b :: banEntriesOf env u b o st.guilds) ++ [Msg.dateLine]
    ∧ ∀ g : Guild, ((syncBansGuild env u b o g).2.2).isSome = listedInBanSummary env u b o g := by
  constructor
  · simp only [syncBans]
    rw [syncBansLoop_msgs_nil]
  · intro g
    unfold syncBansGuild listedInBanSummary
    cases b
    · simp only [Bool.false_eq_true, if_false]
      cases h1 : env.banRemoveFails g.id u <;> cases h2 : g.bans.contains u <;>
        cases h3 : env.resolveUser u <;> by_cases ho : g.id ≠ o <;>
          simp [h1, h2, h3, ho]
    · simp only [if_true]
      cases h1 : env.banCreateFails g.id u <;> by_cases ho : g.id ≠ o <;>
        cases hm : fetchMember env (g.addBan u) u <;> simp [h1, ho, hm]

/-- Claim C9 (counterexample): an interrupted `saveData` write (a plain
truncating `fs.writeFileSync`, no temp-file-and-rename) leaves file contents
that a subsequent `loadData` observes as neither the complete previous
snapshot nor the complete new snapshot. -/
theorem c9_counterexample :
    loadObserves (fileAfterSave exSd2 (WriteOutcome.interrupted 3)) exSdEmpty = false
    ∧ loadObserves (fileAfterSave exSd2 (WriteOutcome.interrupted 3)) exSd2 = false
    ∧ fileAfterSave exSdEmpty WriteOutcome.completed ≠ fileAfterSave exSd2 WriteOutcome.completed := by
  decide

/-- Claim C9 (amended): `saveData` is a single whole-file write that is not
atomic: a completed write is observed in full by a subsequent load, but
there are snapshots and an interruption point whose torn contents are
observed as neither the previous nor the new snapshot. -/
theorem c9_amended :
    (∀ sd : SyncData, loadObserves (fileAfterSave sd WriteOutcome.completed) sd = true)
    ∧ ∃ (sd sd' : SyncData) (k : Nat),
        loadObserves (fileAfterSave sd (WriteOutcome.interrupted k)) sd' = false
        ∧ loadObserves (fileAfterSave sd (WriteOutcome.interrupted k)) sd = false := by
  constructor
  · intro sd
    simp [loadObserves, fileAfterSave]
  · exact ⟨exSd2, exSdEmpty, 3, by decide, by decide⟩

/-- Claim C10: the two `syncBans` revisions are behaviorally equivalent on
world state (canonical flag, persisted snapshot, per-guild ban state) and on
the issued sequence of per-server ban-create/ban-remove calls, for every
environment, user, flag and state; they differ only in the status messages
they emit. -/
theorem c10_revisions_equivalent (env : ApiEnv) (u : String) (b : Bool)
    (lm : Msg) (o : String) (st : BotState) :
    (syncBans env u b lm o st).st = (syncBansEarly env u b st).st
    ∧ (syncBans env u b lm o st).acts = (syncBansEarly env u b st).acts :=
  syncBans_eq_syncBansEarly env u b lm o st

/-- Claim C4: a muted-role membership change observed on a non-origin server
(for a user with an existing canonical mute record, not currently
guard-owned, with the per-server role calls succeeding) is reverted within
that single handler invocation — afterwards the member's possession of the
server's muted role equals the canonical `muted` flag — while the canonical
record (both `muted` and `muteOriginServer`, indeed all of `syncData`) and
the guard set are left unchanged and no exception escapes. -/
theorem c4_non_origin_revert (now : Nat) (gid u : String) (oldT : Option Nat)
    (oldHas : Bool) (st : BotState) (g : Guild) (m : Member) (rec : MuteRecord)
    (HG : findGuild st gid = some g)
    (HM : g.members.find? (fun x => x.id = u) = some m)
    (Ht : oldT = m.timeoutUntil)
    (Htog : oldHas = !(m.roles.any (fun x => x.name = MUTED_ROLE_NAME)))
    (Hrec : lookupA st.syncData.mutedRoles u = some rec)
    (Horig : ¬ rec.originGuildId = gid)
    (Hp : st.processingUsers.contains u = false) :
    (guildMemberUpdate ApiEnv.ok now gid u oldT oldHas st).st.syncData = st.syncData
    ∧ (guildMemberUpdate ApiEnv.ok now gid u oldT oldHas st).st.processingUsers
        = st.processingUsers
    ∧ (guildMemberUpdate ApiEnv.ok now gid u oldT oldHas st).threw = false
    ∧ memberHasRoleId (guildMemberUpdate ApiEnv.ok now gid u oldT oldHas st).st gid u
        (resolveMutedRoleId g) = rec.muted := by
  have hteq : ¬ (oldT ≠ m.timeoutUntil) := by simp [Ht]
  have hneq : ¬ (oldHas = m.roles.any (fun x => x.name = MUTED_ROLE_NAME)) := by
    rw [Htog]
    cases m.roles.any (fun x => x.name = MUTED_ROLE_NAME) <;> simp
  unfold guildMemberUpdate
  simp only [HG, HM]
  rw [if_neg hteq, if_neg hneq]
  simp only [Hp, Bool.false_eq_true, if_false, Hrec]
  rw [if_neg Horig]
  obtain ⟨p1, p2, p3, p4, p5⟩ := revertNonOrigin_ok_post u gid rec st g m [] [] HG HM
  exact ⟨p1, by rw [p3]; exact procDel_procAdd_of_not st.processingUsers u Hp, p4, p5⟩

theorem c4_non_origin_revert_witness :
    (guildMemberUpdate ApiEnv.ok 50 "g1" "u" none true exStNonOrigin).st.syncData
      = exStNonOrigin.syncData
    ∧ (guildMemberUpdate ApiEnv.ok 50 "g1" "u" none true exStNonOrigin).st.processingUsers
      = exStNonOrigin.processingUsers
    ∧ (guildMemberUpdate ApiEnv.ok 50 "g1" "u" none true exStNonOrigin).threw = false
    ∧ memberHasRoleId (guildMemberUpdate ApiEnv.ok 50 "g1" "u" none true exStNonOrigin).st
        "g1" "u" (resolveMutedRoleId exGuildMuted) = true :=
  c4_non_origin_revert 50 "g1" "u" none true exStNonOrigin exGuildMuted exMember
    { muted := true, originGuildId := "g0" } (by decide) (by decide) rfl (by decide)
    (by decide) (by decide) (by decide)

/-- Claim C7: in every replicator sweep, each guild is processed
independently: the final guild states are a per-guild map and the issued
calls a per-guild concatenation over the enumeration order, so a failure at
one server never prevents visiting and mutating the others; moreover a
guild's processing depends only on the environment's behavior at that guild
(two environments agreeing there give the same result for it), and the
embedded operations are total — per-server failures are swallowed, never
propagated to the caller. -/
theorem c7_failure_isolation (env env' : ApiEnv) (u o : String) (b : Bool)
    (lm : Msg) (e : Option Nat) (now : Nat) (mu : Bool) (st : BotState) (g : Guild)
    (hA : ApiEnv.AgreeAt g.id env env')
    (hp : st.processingUsers.contains u = false) :
    ((syncBans env u b lm o st).st.guilds
        = st.guilds.map (fun g0 => (syncBansGuild env u b o g0).1)
      ∧ (syncBans env u b lm o st).acts
        = st.guilds.flatMap (fun g0 => (syncBansGuild env u b o g0).2.1)
      ∧ syncBansGuild env u b o g = syncBansGuild env' u b o g)
    ∧ ((syncTimeouts env now u e lm st).st.guilds
        = st.guilds.map (fun g0 => (syncTimeoutsGuild env now u (normalizeTimeout e now) g0).1)
      ∧ (syncTimeouts env now u e lm st).acts
        = st.guilds.flatMap (fun g0 => (syncTimeoutsGuild env now u (normalizeTimeout e now) g0).2.1)
      ∧ syncTimeoutsGuild env now u (normalizeTimeout e now) g
        = syncTimeoutsGuild env' now u (normalizeTimeout e now) g)
    ∧ ((syncMutedRole env u mu o lm st).st.guilds
        = st.guilds.map (fun g0 => (syncMutedRoleGuild env u mu o g0).1)
      ∧ (syncMutedRole env u mu o lm st).acts
        = st.guilds.flatMap (fun g0 => (syncMutedRoleGuild env u mu o g0).2.1)
      ∧ syncMutedRoleGuild env u mu o g = syncMutedRoleGuild env' u mu o g) := by
  refine ⟨⟨?_, ?_, ?_⟩, ⟨?_, ?_, ?_⟩, ⟨?_, ?_, ?_⟩⟩
  · simp only [syncBans]
    rw [syncBansLoop_guilds]
  · simp only [syncBans]
    rw [syncBansLoop_acts]
  · exact syncBansGuild_agree env env' u b o g hA
  · simp only [syncTimeouts]
    rw [syncTimeoutsLoop_guilds]
  · simp only [syncTimeouts]
    rw [syncTimeoutsLoop_acts]
  · exact syncTimeoutsGuild_agree env env' now u (normalizeTimeout e now) g hA
  · simp only [syncMutedRole, hp, Bool.false_eq_true, if_false]
    rw [syncMutedRoleLoop_guilds]
  · simp only [syncMutedRole, hp, Bool.false_eq_true, if_false]
    rw [syncMutedRoleLoop_acts]
  · exact syncMutedRoleGuild_agree env env' u mu o g hA

theorem c7_failure_isolation_witness :
    (syncBans ApiEnv.ok "u" true Msg.dateLine "o" exStPlain).st.guilds
      = exStPlain.guilds.map (fun g0 => (syncBansGuild ApiEnv.ok "u" true "o" g0).1) :=
  (c7_failure_isolation ApiEnv.ok ApiEnv.ok "u" "o" true Msg.dateLine none 0 true
    exStPlain exGuild
    ⟨fun _ => rfl, fun _ => rfl, fun _ => rfl, rfl, fun _ => rfl, fun _ => rfl,
     fun _ => rfl, fun _ => rfl⟩ (by decide)).1.1
